import Mathlib

/-! # vmselect: admission gate and request router

A shallow embedding of `app/vmselect/main.go`: the bounded channel
`concurrencyCh` used as a counting semaphore, `requestHandler`,
`selectHandler`, `deleteHandler` and `sendPrometheusError`.

Side effects (counter increments, calls of the external handlers, writes to
the response) are recorded as a trace of `Event`s in program order.  The
collaborators that live outside `main.go` (`httpserver.ParsePath`,
`auth.NewToken`, `searchutils.GetMaxQueryDuration`, the `loki.*Handler`
functions) are parameters collected in `Env`.

Go strings are embedded as `String`; the code only compares them with ASCII
literals and slices them at the length of ASCII literals, so a character of
the embedding stands for one byte of the literal.
-/

namespace VMSelect

/-! ## Strings -/

/-- Go `len(s)`. -/
def len (s : String) : Nat := s.data.length

/-- Go `strings.HasPrefix(s, pre)`. -/
def HasPrefix (s pre : String) : Bool := pre.data.isPrefixOf s.data

/-- Go `strings.HasSuffix(s, suf)`. -/
def HasSuffix (s suf : String) : Bool := suf.data.isSuffixOf s.data

/-- Go slice expression `s[n:]`. -/
def sliceFrom (s : String) (n : Nat) : String := ⟨s.data.drop n⟩

/-- Go slice expression `s[:n]`. -/
def sliceTo (s : String) (n : Nat) : String := ⟨s.data.take n⟩

/-- Go `strings.Replace(s, old, new, -1)` for a non-empty `old`, on character
lists: scan left to right, replace each occurrence of `old` by `new` and resume
right after the occurrence (occurrences never overlap).  The counter `skip` is
the number of characters of the current occurrence still to be passed over. -/
def replaceFrom (old new : List Char) : Nat → List Char → List Char
  | _, [] => []
  | skip + 1, _ :: cs => replaceFrom old new skip cs
  | 0, c :: cs =>
    if old.isPrefixOf (c :: cs) then new ++ replaceFrom old new (old.length - 1) cs
    else c :: replaceFrom old new 0 cs

/-- Go `strings.Replace(s, old, new, -1)` (`old` non-empty). -/
def Replace (s old new : String) : String := ⟨replaceFrom old.data new.data 0 s.data⟩

/-- The predicate `strings.Contains(s, sub)`. -/
def Contains (s sub : String) : Prop := sub.data <:+: s.data

instance (s sub : String) : Decidable (Contains s sub) :=
  inferInstanceAs (Decidable (sub.data <:+: s.data))

/-! ## Errors -/

/-- An argument of a `fmt.Errorf` call that is not an error. -/
inductive FmtArg where
  | int (n : Int)
  | duration (d : Int)
  | str (s : String)
  deriving DecidableEq, Repr

/-- Go `error` values as far as `main.go` looks into them. -/
inductive GoError where
  /-- The result of `fmt.Errorf(format, args...)` without `%w`. -/
  | errorf (format : String) (args : List FmtArg)
  /-- An error wrapping `inner` (its `Unwrap` returns `inner`). -/
  | wrapping (text : String) (inner : GoError)
  /-- The value `&httpserver.ErrorWithStatusCode{Err, StatusCode}`. -/
  | ErrorWithStatusCode (Err : GoError) (StatusCode : Int)
  deriving DecidableEq, Repr

/-- Go `errors.As(err, &esc)` for `esc *httpserver.ErrorWithStatusCode`: the
first `ErrorWithStatusCode` on the unwrap chain of `err`; the result is its
`StatusCode`. -/
def errorsAs : GoError → Option Int
  | .errorf _ _ => none
  | .wrapping _ inner => errorsAs inner
  | .ErrorWithStatusCode _ code => some code

def StatusServiceUnavailable : Int := 503
def StatusUnprocessableEntity : Int := 422
def StatusNoContent : Int := 204

/-! ## Requests, paths, tokens -/

/-- The fields of `*http.Request` read by `main.go`. -/
structure Request where
  RequestURI : String
  URLPath : String
  deriving DecidableEq, Repr

/-- The type `httpserver.Path`. -/
structure Path where
  Prefix : String
  AuthToken : String
  Suffix : String
  deriving DecidableEq, Repr

/-- The type `auth.Token`. -/
structure Token where
  AccountID : Nat
  ProjectID : Nat
  deriving DecidableEq, Repr

/-! ## Counters -/

/-- The `metrics.Counter` variables of `main.go`. -/
inductive Counter where
  | concurrencyLimitReached | concurrencyLimitTimeout
  | labelValuesRequests | labelValuesErrors
  | queryRequests | queryErrors
  | queryRangeRequests | queryRangeErrors
  | tailRequests | tailErrors
  | seriesRequests | seriesErrors
  | seriesCountRequests | seriesCountErrors
  | labelsRequests | labelsErrors
  | labelsCountRequests | labelsCountErrors
  | statusTSDBRequests | statusTSDBErrors
  | statusActiveQueriesRequests
  | deleteRequests | deleteErrors
  | exportRequests | exportErrors
  | exportNativeRequests | exportNativeErrors
  | federateRequests | federateErrors
  deriving DecidableEq, Repr

/-- The counters of the admission gate; every other counter belongs to an
endpoint. -/
def Counter.isGate : Counter → Bool
  | .concurrencyLimitReached | .concurrencyLimitTimeout => true
  | _ => false

/-- The name each counter is registered under (`metrics.NewCounter(...)`). -/
def Counter.metricName : Counter → String
  | .concurrencyLimitReached => "vm_concurrent_select_limit_reached_total"
  | .concurrencyLimitTimeout => "vm_concurrent_select_limit_timeout_total"
  | .labelValuesRequests => "vm_http_requests_total\x7bpath=\"/select/\x7b\x7d/loki/api/v1/label/\x7b\x7d/values\"\x7d"
  | .labelValuesErrors => "vm_http_request_errors_total\x7bpath=\"/select/\x7b\x7d/loki/api/v1/label/\x7b\x7d/values\"\x7d"
  | .queryRequests => "vm_http_requests_total\x7bpath=\"/select/\x7b\x7d/loki/api/v1/query\"\x7d"
  | .queryErrors => "vm_http_request_errors_total\x7bpath=\"/select/\x7b\x7d/loki/api/v1/query\"\x7d"
  | .queryRangeRequests => "vm_http_requests_total\x7bpath=\"/select/\x7b\x7d/loki/api/v1/query_range\"\x7d"
  | .queryRangeErrors => "vm_http_request_errors_total\x7bpath=\"/select/\x7b\x7d/loki/api/v1/query_range\"\x7d"
  | .tailRequests => "vm_http_requests_total\x7bpath=\"/select/\x7b\x7d/loki/api/v1/tail\"\x7d"
  | .tailErrors => "vm_http_request_errors_total\x7bpath=\"/select/\x7b\x7d/loki/api/v1/tail\"\x7d"
  | .seriesRequests => "vm_http_requests_total\x7bpath=\"/select/\x7b\x7d/loki/api/v1/series\"\x7d"
  | .seriesErrors => "vm_http_request_errors_total\x7bpath=\"/select/\x7b\x7d/loki/api/v1/series\"\x7d"
  | .seriesCountRequests => "vm_http_requests_total\x7bpath=\"/select/\x7b\x7d/loki/api/v1/series/count\"\x7d"
  | .seriesCountErrors => "vm_http_request_errors_total\x7bpath=\"/select/\x7b\x7d/loki/api/v1/series/count\"\x7d"
  | .labelsRequests => "vm_http_requests_total\x7bpath=\"/select/\x7b\x7d/loki/api/v1/label\"\x7d"
  | .labelsErrors => "vm_http_request_errors_total\x7bpath=\"/select/\x7b\x7d/loki/api/v1/label\"\x7d"
  | .labelsCountRequests => "vm_http_requests_total\x7bpath=\"/select/\x7b\x7d/loki/api/v1/label/count\"\x7d"
  | .labelsCountErrors => "vm_http_request_errors_total\x7bpath=\"/select/\x7b\x7d/loki/api/v1/label/count\"\x7d"
  | .statusTSDBRequests => "vm_http_requests_total\x7bpath=\"/select/\x7b\x7d/v1/api/v1/status/tsdb\"\x7d"
  | .statusTSDBErrors => "vm_http_request_errors_total\x7bpath=\"/select/\x7b\x7d/v1/api/v1/status/tsdb\"\x7d"
  | .statusActiveQueriesRequests => "vm_http_requests_total\x7bpath=\"/select/\x7b\x7dv1/api/v1/status/active_queries\"\x7d"
  | .deleteRequests => "vm_http_requests_total\x7bpath=\"/delete/\x7b\x7d/v1/api/v1/admin/tsdb/delete_series\"\x7d"
  | .deleteErrors => "vm_http_request_errors_total\x7bpath=\"/delete/\x7b\x7d/v1/api/v1/admin/tsdb/delete_series\"\x7d"
  | .exportRequests => "vm_http_requests_total\x7bpath=\"/select/\x7b\x7d/v1/api/v1/export\"\x7d"
  | .exportErrors => "vm_http_request_errors_total\x7bpath=\"/select/\x7b\x7d/v1/api/v1/export\"\x7d"
  | .exportNativeRequests => "vm_http_requests_total\x7bpath=\"/select/\x7b\x7d/v1/api/v1/export/native\"\x7d"
  | .exportNativeErrors => "vm_http_request_errors_total\x7bpath=\"/select/\x7b\x7d/v1/api/v1/export/native\"\x7d"
  | .federateRequests => "vm_http_requests_total\x7bpath=\"/select/\x7b\x7d/v1/federate\"\x7d"
  | .federateErrors => "vm_http_request_errors_total\x7bpath=\"/select/\x7b\x7d/v1/federate\"\x7d"

/-! ## Handlers and events -/

/-- A call of one of the endpoint functions, with the arguments that vary
(`startTime`, `w` and `r` are passed to all of them alike). -/
inductive Handler where
  | LabelValuesHandler (tok : Token) (labelName : String)
  | QueryHandler (tok : Token)
  | QueryRangeHandler (tok : Token)
  | TailHandler (tok : Token)
  | SeriesHandler (tok : Token)
  | SeriesCountHandler (tok : Token)
  | LabelsHandler (tok : Token)
  | LabelsCountHandler (tok : Token)
  | TSDBStatusHandler (tok : Token)
  | WriteActiveQueries
  | ExportHandler (tok : Token)
  | ExportNativeHandler (tok : Token)
  | FederateHandler (tok : Token)
  | DeleteHandler (tok : Token)
  deriving DecidableEq, Repr

/-- An argument of `httpserver.Errorf` or `logger.Warnf`. -/
inductive LogArg where
  | str (s : String)
  | err (e : GoError)
  deriving DecidableEq, Repr

/-- The observable actions of `requestHandler`, in program order. -/
inductive Event where
  /-- The call `c.Inc()`. -/
  | inc (c : Counter)
  /-- This request's own send `concurrencyCh <- struct{}{}`. -/
  | chanSend
  /-- This request's own deferred receive `<-concurrencyCh`. -/
  | chanRecv
  /-- The call `timerpool.Get(d)`. -/
  | timerGet (d : Int)
  /-- The call `timerpool.Put(t)`. -/
  | timerPut
  /-- The call `fmt.Fprintf(w, body)`. -/
  | Fprintf (body : String)
  /-- The call `httpserver.ParsePath(path)`. -/
  | ParsePath (path : String)
  /-- The call `auth.NewToken(authToken)`. -/
  | NewToken (authToken : String)
  /-- The call `httpserver.EnableCORS(w, r)`. -/
  | EnableCORS
  /-- A call of an endpoint function. -/
  | call (h : Handler)
  /-- The call `httpserver.Errorf(w, r, format, args...)`. -/
  | Errorf (format : String) (args : List LogArg)
  /-- The call `logger.Warnf(format, args...)`. -/
  | Warnf (format : String) (args : List LogArg)
  /-- The call `w.Header().Set(key, value)`. -/
  | HeaderSet (key value : String)
  /-- The call `w.WriteHeader(statusCode)`. -/
  | WriteHeader (statusCode : Int)
  /-- The panic raised by `w.WriteHeader(statusCode)` of `net/http` on a
  status code outside 100..999: the function that made the call does not
  return; deferred calls still run. -/
  | WriteHeaderPanic (statusCode : Int)
  /-- The call `loki.WriteErrorResponse(w, statusCode, err)`. -/
  | WriteErrorResponse (statusCode : Int) (err : GoError)
  deriving DecidableEq, Repr

/-- Events that touch the response writer `w`. -/
def Event.writesResponse : Event → Bool
  | .Fprintf _ | .EnableCORS | .call _ | .Errorf _ _ | .HeaderSet _ _
  | .WriteHeader _ | .WriteErrorResponse _ _ => true
  | _ => false

/-- Events that increment a counter of an endpoint. -/
def Event.isEndpointInc : Event → Bool
  | .inc c => !c.isGate
  | _ => false

/-- Events that are a panic. -/
def Event.isPanic : Event → Bool
  | .WriteHeaderPanic _ => true
  | _ => false

/-- Events that call an endpoint function. -/
def Event.isCall : Event → Bool
  | .call _ => true
  | _ => false

/-- The collaborators of `main.go` that are defined elsewhere. -/
structure Env where
  /-- The function `searchutils.GetMaxQueryDuration(r)`, in nanoseconds. -/
  GetMaxQueryDuration : Request → Int
  /-- The function `httpserver.ParsePath(path)`. -/
  ParsePath : String → Except GoError Path
  /-- The function `auth.NewToken(authToken)`. -/
  NewToken : String → Except GoError Token
  /-- The error returned by an endpoint function (`none` is `nil`). -/
  handlerResult : Handler → Option GoError
  /-- Whether another holder runs its deferred receive on `concurrencyCh`
  while this request waits in the second `select`, before the timer fires. -/
  releasedWhileQueued : Bool

/-- The command-line flags read by `requestHandler`. -/
structure Config where
  /-- The flag `-search.maxConcurrentRequests`. -/
  maxConcurrentRequests : Int
  /-- The flag `-search.maxQueueDuration`, in nanoseconds. -/
  maxQueueDuration : Int
  deriving DecidableEq, Repr

/-! ## The admission gate: `concurrencyCh` -/

/-- The buffered channel `concurrencyCh` of type `chan struct{}`: only
`cap(concurrencyCh)` (the capacity of the gate) and `len(concurrencyCh)` (the
number of occupied slots) matter. -/
structure Chan where
  cap : Int
  len : Int
  deriving DecidableEq, Repr

/-- The statement `concurrencyCh = make(chan struct{}, n)` of `main`. -/
def Chan.make (n : Int) : Chan := { cap := n, len := 0 }

/-- Whether a non-blocking send can proceed: there is room in the buffer. -/
def Chan.canSend (ch : Chan) : Bool := decide (ch.len < ch.cap)

/-- The channel after a send. -/
def Chan.send (ch : Chan) : Chan := { ch with len := ch.len + 1 }

/-- The channel after a receive. -/
def Chan.recv (ch : Chan) : Chan := { ch with len := ch.len - 1 }

/-! ### The gate under interleaved requests -/

/-- The gate together with the requests that are in flight: `queued` requests
are blocked in the second `select` of `requestHandler`, `holders` requests
have sent on `concurrencyCh` and have not yet run their deferred receive. -/
structure Sys where
  ch : Chan
  queued : Nat
  holders : Nat
  limitReached : Nat
  limitTimeout : Nat
  deriving DecidableEq, Repr

/-- The state after `main` has created the channel. -/
def Sys.init (capacity : Int) : Sys :=
  { ch := Chan.make capacity, queued := 0, holders := 0, limitReached := 0, limitTimeout := 0 }

/-- The atomic steps a request takes on the gate. -/
inductive Step where
  /-- First `select`, `case concurrencyCh <- struct{}{}`. -/
  | sendImmediate
  /-- First `select`, `default`: the counter is incremented and the timer armed. -/
  | enterQueue
  /-- Second `select`, `case concurrencyCh <- struct{}{}`. -/
  | sendQueued
  /-- Second `select`, `case <-t.C`. -/
  | timerFired
  /-- The deferred `<-concurrencyCh` of a request that has sent. -/
  | release
  deriving DecidableEq, Repr

/-- One step of the interleaved system; `none` when the step is not enabled. -/
def step (s : Sys) : Step → Option Sys
  | .sendImmediate =>
    if s.ch.canSend then some { s with ch := s.ch.send, holders := s.holders + 1 } else none
  | .enterQueue =>
    if s.ch.canSend then none
    else some { s with queued := s.queued + 1, limitReached := s.limitReached + 1 }
  | .sendQueued =>
    if 0 < s.queued ∧ s.ch.canSend then
      some { s with ch := s.ch.send, queued := s.queued - 1, holders := s.holders + 1 }
    else none
  | .timerFired =>
    if 0 < s.queued then
      some { s with queued := s.queued - 1, limitTimeout := s.limitTimeout + 1 }
    else none
  | .release =>
    if 0 < s.holders then some { s with ch := s.ch.recv, holders := s.holders - 1 } else none

/-- A finite sequence of steps; `none` as soon as a step is not enabled. -/
def run (s : Sys) : List Step → Option Sys
  | [] => some s
  | st :: rest => (step s st).bind fun s1 => run s1 rest

/-! ## The router -/

/-- The status codes that `w.WriteHeader` of `net/http` accepts
(`checkWriteHeaderCode`); on any other code it panics. -/
def validWriteHeaderCode (code : Int) : Bool := decide (100 ≤ code ∧ code ≤ 999)

/-- The function `sendPrometheusError`.  When the status code is one that
`w.WriteHeader` rejects, the call panics and `loki.WriteErrorResponse` is not
reached. -/
def sendPrometheusError (r : Request) (err : GoError) : List Event :=
  let statusCode :=
    match errorsAs err with
    | some code => code
    | none => StatusUnprocessableEntity
  [ .Warnf "error in %q: %s" [.str r.RequestURI, .err err],
    .HeaderSet "Content-Type" "application/json",
    .WriteHeader statusCode ] ++
  (if validWriteHeaderCode statusCode then [.WriteErrorResponse statusCode err]
    else [.WriteHeaderPanic statusCode])

/-- The error path of the export, federate and delete endpoints:
`httpserver.Errorf(w, r, "error in %q: %s", r.URL.Path, err)`. -/
def sendPlainError (r : Request) (err : GoError) : List Event :=
  [ .Errorf "error in %q: %s" [.str r.URLPath, .err err] ]

/-- The common shape of a `case` of `selectHandler`: increment the request
counter, optionally enable CORS, call the endpoint function and, when it
returns an error, increment the error counter and report the error with
`onErr`; return `true` either way.  When the events end in a
`WriteHeaderPanic` the `case` does not return and the boolean is not
observed by the caller. -/
def serve (env : Env) (requests errors : Counter) (cors : Bool) (h : Handler)
    (onErr : GoError → List Event) : Bool × List Event :=
  let head := [Event.inc requests] ++ (if cors then [Event.EnableCORS] else []) ++ [Event.call h]
  match env.handlerResult h with
  | some err => (true, head ++ [Event.inc errors] ++ onErr err)
  | none => (true, head)

/-- The `switch p.Suffix` of `selectHandler`; `orElse` is the result of its
`default` case, which is `return false` in `selectHandler`. -/
def selectSwitch (env : Env) (r : Request) (p : Path) (tok : Token)
    (orElse : Bool × List Event) : Bool × List Event :=
  if p.Suffix = "loki/api/v1/query" then
    serve env .queryRequests .queryErrors true (.QueryHandler tok) (sendPrometheusError r)
  else if p.Suffix = "loki/api/v1/query_range" then
    serve env .queryRangeRequests .queryRangeErrors true (.QueryRangeHandler tok)
      (sendPrometheusError r)
  else if p.Suffix = "loki/api/v1/tail" then
    serve env .tailRequests .tailErrors true (.TailHandler tok) (sendPrometheusError r)
  else if p.Suffix = "loki/api/v1/series" then
    serve env .seriesRequests .seriesErrors true (.SeriesHandler tok) (sendPrometheusError r)
  else if p.Suffix = "loki/api/v1/series/count" then
    serve env .seriesCountRequests .seriesCountErrors true (.SeriesCountHandler tok)
      (sendPrometheusError r)
  else if p.Suffix = "loki/api/v1/label" ∨ p.Suffix = "loki/api/v1/labels" then
    serve env .labelsRequests .labelsErrors true (.LabelsHandler tok) (sendPrometheusError r)
  else if p.Suffix = "loki/api/v1/labels/count" then
    serve env .labelsCountRequests .labelsCountErrors true (.LabelsCountHandler tok)
      (sendPrometheusError r)
  else if p.Suffix = "loki/api/v1/status/tsdb" then
    serve env .statusTSDBRequests .statusTSDBErrors false (.TSDBStatusHandler tok)
      (sendPrometheusError r)
  else if p.Suffix = "loki/api/v1/status/active_queries" then
    (true, [.inc .statusActiveQueriesRequests, .call .WriteActiveQueries])
  else if p.Suffix = "loki/api/v1/export" then
    serve env .exportRequests .exportErrors false (.ExportHandler tok) (sendPlainError r)
  else if p.Suffix = "loki/api/v1/export/native" then
    serve env .exportNativeRequests .exportNativeErrors false (.ExportNativeHandler tok)
      (sendPlainError r)
  else if p.Suffix = "loki/federate" then
    serve env .federateRequests .federateErrors false (.FederateHandler tok) (sendPlainError r)
  else
    orElse

/-- The function `selectHandler`: the parametric label-values check first,
then the `switch`. -/
def selectHandler (env : Env) (r : Request) (p : Path) (tok : Token) : Bool × List Event :=
  let s := sliceFrom p.Suffix (len "loki/api/v1/label/")
  if HasPrefix p.Suffix "loki/api/v1/label/" ∧ HasSuffix s "/values" then
    let labelName := sliceTo s (len s - len "/values")
    serve env .labelValuesRequests .labelValuesErrors true (.LabelValuesHandler tok labelName)
      (sendPrometheusError r)
  else
    selectSwitch env r p tok (false, [])

/-- The variant of `selectHandler` that evaluates the `switch` first and the
parametric label-values check in its `default` case. -/
def selectHandlerSwitchFirst (env : Env) (r : Request) (p : Path) (tok : Token) :
    Bool × List Event :=
  let s := sliceFrom p.Suffix (len "loki/api/v1/label/")
  selectSwitch env r p tok
    (if HasPrefix p.Suffix "loki/api/v1/label/" ∧ HasSuffix s "/values" then
      serve env .labelValuesRequests .labelValuesErrors true
        (.LabelValuesHandler tok (sliceTo s (len s - len "/values"))) (sendPrometheusError r)
    else (false, []))

/-- The function `deleteHandler`. -/
def deleteHandler (env : Env) (r : Request) (p : Path) (tok : Token) : Bool × List Event :=
  if p.Suffix = "prometheus/api/v1/admin/tsdb/delete_series" then
    match env.handlerResult (.DeleteHandler tok) with
    | some err =>
      (true, [.inc .deleteRequests, .call (.DeleteHandler tok), .inc .deleteErrors]
        ++ sendPlainError r err)
    | none =>
      (true, [.inc .deleteRequests, .call (.DeleteHandler tok), .WriteHeader StatusNoContent])
  else
    (false, [])

/-- The text written for the request URI `/`. -/
def rootBanner : String :=
  "vmselect - a component of VictoriaMetrics cluster. See docs at https://victoriametrics.github.io/Cluster-VictoriaMetrics.html"

/-- The format of the error built when the wait in the queue times out. -/
def queueTimeoutFormat : String :=
  "cannot handle more than %d concurrent search requests during %s; possible solutions: " ++
  "increase `-search.maxQueueDuration`; increase `-search.maxQueryDuration`; increase `-search.maxConcurrentRequests`; " ++
  "increase server capacity"

/-- The part of `requestHandler` after the gate (from the path normalisation
to the `switch p.Prefix`). -/
def routeRequest (env : Env) (r : Request) : Bool × List Event :=
  let path := Replace r.URLPath "//" "/"
  match env.ParsePath path with
  | .error err =>
    (true, [.ParsePath path, .Errorf "cannot parse path %q: %s" [.str path, .err err]])
  | .ok p =>
    match env.NewToken p.AuthToken with
    | .error err =>
      (true, [.ParsePath path, .NewToken p.AuthToken, .Errorf "auth error: %s" [.err err]])
    | .ok tok =>
      let pre := [Event.ParsePath path, Event.NewToken p.AuthToken]
      if p.Prefix = "select" then
        ((selectHandler env r p tok).1, pre ++ (selectHandler env r p tok).2)
      else if p.Prefix = "delete" then
        ((deleteHandler env r p tok).1, pre ++ (deleteHandler env r p tok).2)
      else
        (false, pre)

/-- The duration `d` of the wait timer:
`d := GetMaxQueryDuration(r); if d > *maxQueueDuration { d = *maxQueueDuration }`. -/
def queueWait (cfg : Config) (env : Env) (r : Request) : Int :=
  let d := env.GetMaxQueryDuration r
  if d > cfg.maxQueueDuration then cfg.maxQueueDuration else d

/-- The outcome of one call of `requestHandler`. -/
structure Result where
  /-- The returned boolean; it is not observed when the trace holds a
  `WriteHeaderPanic`, since the call then ends by that panic. -/
  ret : Bool
  /-- The channel `concurrencyCh` when the call returns. -/
  ch : Chan
  /-- The actions of the call, in program order. -/
  trace : List Event
  deriving DecidableEq, Repr

/-- How a request got past the two `select` statements on `concurrencyCh`. -/
inductive Admission where
  /-- First `select`, `case concurrencyCh <- struct{}{}`. -/
  | immediate
  /-- Second `select`, `case concurrencyCh <- struct{}{}`. -/
  | queued
  /-- Second `select`, `case <-t.C`. -/
  | timedOut
  deriving DecidableEq, Repr

/-- The two `select` statements of `requestHandler` on the channel state
`ch`: the first sends if the buffer has room and otherwise takes `default`;
the second sends if a slot is free by the time the timer would fire (another
holder has run its deferred receive), and otherwise the timer fires.  The
result is the case taken and the channel right after it. -/
def gateSelect (env : Env) (ch : Chan) : Admission × Chan :=
  if ch.canSend then (.immediate, ch.send)
  else if env.releasedWhileQueued ∧ 0 < ch.len then
    (if ch.recv.canSend then (.queued, ch.recv.send) else (.timedOut, ch.recv))
  else (.timedOut, ch)

/-- The function `requestHandler`, run on the channel state `ch`.  The
deferred receive of an admitted request runs last. -/
def requestHandler (cfg : Config) (env : Env) (ch : Chan) (r : Request) : Result :=
  if r.RequestURI = "/" then
    { ret := true, ch := ch, trace := [.Fprintf rootBanner] }
  else
    match gateSelect env ch with
    | (.immediate, ch1) =>
      { ret := (routeRequest env r).1, ch := ch1.recv,
        trace := [.chanSend] ++ (routeRequest env r).2 ++ [.chanRecv] }
    | (.queued, ch1) =>
      { ret := (routeRequest env r).1, ch := ch1.recv,
        trace := [.inc .concurrencyLimitReached, .timerGet (queueWait cfg env r), .chanSend,
          .timerPut] ++ (routeRequest env r).2 ++ [.chanRecv] }
    | (.timedOut, ch1) =>
      { ret := true, ch := ch1,
        trace := [.inc .concurrencyLimitReached, .timerGet (queueWait cfg env r), .timerPut,
          .inc .concurrencyLimitTimeout,
          .Errorf "%s" [.err (.ErrorWithStatusCode
            (.errorf queueTimeoutFormat
              [.int cfg.maxConcurrentRequests, .duration (queueWait cfg env r)])
            StatusServiceUnavailable)]] }

/-! ## The route table of `selectHandler` -/

/-- The routes of `selectHandler`: the parametric label-values route and one
route for each `case` of the `switch`. -/
inductive SelectRoute where
  | LabelValues | Query | QueryRange | Tail | Series | SeriesCount | Labels | LabelsCount
  | StatusTSDB | StatusActiveQueries | Export | ExportNative | Federate
  deriving DecidableEq, Repr

/-- The strings listed in the `case` of a route; the parametric route has
none. -/
def SelectRoute.exact : SelectRoute → List String
  | .LabelValues => []
  | .Query => ["loki/api/v1/query"]
  | .QueryRange => ["loki/api/v1/query_range"]
  | .Tail => ["loki/api/v1/tail"]
  | .Series => ["loki/api/v1/series"]
  | .SeriesCount => ["loki/api/v1/series/count"]
  | .Labels => ["loki/api/v1/label", "loki/api/v1/labels"]
  | .LabelsCount => ["loki/api/v1/labels/count"]
  | .StatusTSDB => ["loki/api/v1/status/tsdb"]
  | .StatusActiveQueries => ["loki/api/v1/status/active_queries"]
  | .Export => ["loki/api/v1/export"]
  | .ExportNative => ["loki/api/v1/export/native"]
  | .Federate => ["loki/federate"]

/-- The parametric pattern: the suffix starts with `loki/api/v1/label/` and
what follows ends with `/values`. -/
def matchesLabelValues (suffix : String) : Bool :=
  HasPrefix suffix "loki/api/v1/label/" &&
    HasSuffix (sliceFrom suffix (len "loki/api/v1/label/")) "/values"

/-- The label name cut out of a suffix by `selectHandler`. -/
def labelNameOf (suffix : String) : String :=
  sliceTo (sliceFrom suffix (len "loki/api/v1/label/"))
    (len (sliceFrom suffix (len "loki/api/v1/label/")) - len "/values")

/-- Whether a route matches a suffix. -/
def SelectRoute.matches (rt : SelectRoute) (suffix : String) : Bool :=
  match rt with
  | .LabelValues => matchesLabelValues suffix
  | _ => decide (suffix ∈ rt.exact)

/-- All exact-match strings of the `switch` of `selectHandler`. -/
def exactStrings : List String :=
  [ "loki/api/v1/query", "loki/api/v1/query_range", "loki/api/v1/tail", "loki/api/v1/series",
    "loki/api/v1/series/count", "loki/api/v1/label", "loki/api/v1/labels",
    "loki/api/v1/labels/count", "loki/api/v1/status/tsdb", "loki/api/v1/status/active_queries",
    "loki/api/v1/export", "loki/api/v1/export/native", "loki/federate" ]

/-- The request counter incremented by a route. -/
def SelectRoute.requests : SelectRoute → Counter
  | .LabelValues => .labelValuesRequests
  | .Query => .queryRequests
  | .QueryRange => .queryRangeRequests
  | .Tail => .tailRequests
  | .Series => .seriesRequests
  | .SeriesCount => .seriesCountRequests
  | .Labels => .labelsRequests
  | .LabelsCount => .labelsCountRequests
  | .StatusTSDB => .statusTSDBRequests
  | .StatusActiveQueries => .statusActiveQueriesRequests
  | .Export => .exportRequests
  | .ExportNative => .exportNativeRequests
  | .Federate => .federateRequests

/-- The endpoint function called by a route. -/
def SelectRoute.handler (rt : SelectRoute) (suffix : String) (tok : Token) : Handler :=
  match rt with
  | .LabelValues => .LabelValuesHandler tok (labelNameOf suffix)
  | .Query => .QueryHandler tok
  | .QueryRange => .QueryRangeHandler tok
  | .Tail => .TailHandler tok
  | .Series => .SeriesHandler tok
  | .SeriesCount => .SeriesCountHandler tok
  | .Labels => .LabelsHandler tok
  | .LabelsCount => .LabelsCountHandler tok
  | .StatusTSDB => .TSDBStatusHandler tok
  | .StatusActiveQueries => .WriteActiveQueries
  | .Export => .ExportHandler tok
  | .ExportNative => .ExportNativeHandler tok
  | .Federate => .FederateHandler tok

/-- The error counter that `selectHandler` and `deleteHandler` increment next
to each endpoint function; `WriteActiveQueries` returns no error. -/
def Handler.errors : Handler → Option Counter
  | .LabelValuesHandler _ _ => some .labelValuesErrors
  | .QueryHandler _ => some .queryErrors
  | .QueryRangeHandler _ => some .queryRangeErrors
  | .TailHandler _ => some .tailErrors
  | .SeriesHandler _ => some .seriesErrors
  | .SeriesCountHandler _ => some .seriesCountErrors
  | .LabelsHandler _ => some .labelsErrors
  | .LabelsCountHandler _ => some .labelsCountErrors
  | .TSDBStatusHandler _ => some .statusTSDBErrors
  | .WriteActiveQueries => none
  | .ExportHandler _ => some .exportErrors
  | .ExportNativeHandler _ => some .exportNativeErrors
  | .FederateHandler _ => some .federateErrors
  | .DeleteHandler _ => some .deleteErrors

/-- The endpoint functions whose error is reported with `sendPrometheusError`;
the errors of the others are passed to `httpserver.Errorf`. -/
def Handler.reportsStructured : Handler → Bool
  | .LabelValuesHandler _ _ | .QueryHandler _ | .QueryRangeHandler _ | .TailHandler _
  | .SeriesHandler _ | .SeriesCountHandler _ | .LabelsHandler _ | .LabelsCountHandler _
  | .TSDBStatusHandler _ => true
  | _ => false

/-- Whether a route calls `httpserver.EnableCORS` before its endpoint
function. -/
def SelectRoute.cors : SelectRoute → Bool
  | .LabelValues | .Query | .QueryRange | .Tail | .Series | .SeriesCount | .Labels
  | .LabelsCount => true
  | _ => false

/-- All routes, the parametric one first and then in the order of the
`switch`. -/
def SelectRoute.all : List SelectRoute :=
  [ .LabelValues, .Query, .QueryRange, .Tail, .Series, .SeriesCount, .Labels, .LabelsCount,
    .StatusTSDB, .StatusActiveQueries, .Export, .ExportNative, .Federate ]

/-- What a route does once it has matched, assembled from the tables above. -/
def SelectRoute.run (rt : SelectRoute) (env : Env) (r : Request) (suffix : String)
    (tok : Token) : Bool × List Event :=
  match (rt.handler suffix tok).errors with
  | none => (true, [.inc rt.requests, .call (rt.handler suffix tok)])
  | some errs =>
    serve env rt.requests errs rt.cors (rt.handler suffix tok)
      (if (rt.handler suffix tok).reportsStructured then sendPrometheusError r
        else sendPlainError r)

/-- The router of the select family as a table lookup: the first route of
the table that matches runs, and no match is `return false`. -/
def selectHandlerTable (env : Env) (r : Request) (p : Path) (tok : Token) :
    Bool × List Event :=
  match SelectRoute.all.find? (fun rt => rt.matches p.Suffix) with
  | some rt => rt.run env r p.Suffix tok
  | none => (false, [])

/-- The status code `sendPrometheusError` computes for an error. -/
def statusFor (err : GoError) : Int :=
  match errorsAs err with
  | some code => code
  | none => StatusUnprocessableEntity

/-! ## Auxiliary predicates -/

/-- The invariant of the interleaved gate: the capacity is the one the
channel was made with, the occupied slots are exactly the holders, and they
fit in the capacity. -/
def Sys.Inv (capacity : Int) (s : Sys) : Prop :=
  s.ch.cap = capacity ∧ s.ch.len = (s.holders : Int) ∧ s.ch.len ≤ s.ch.cap

/-- Events that the code after the gate can produce. -/
def Event.fromRouter : Event → Bool
  | .inc c => !c.isGate
  | .chanSend | .chanRecv | .timerGet _ | .timerPut | .Fprintf _ => false
  | _ => true

/-! ## Sample inputs -/

/-- A configuration with two slots and a queue wait of ten seconds. -/
def sampleConfig : Config := { maxConcurrentRequests := 2, maxQueueDuration := 10000000000 }

/-- The tenant `0:0`. -/
def sampleToken : Token := { AccountID := 0, ProjectID := 0 }

/-- An error that carries no status code. -/
def sampleError : GoError := .errorf "storage is unavailable" []

/-- An error that wraps an `ErrorWithStatusCode` with the code 400. -/
def sampleStatusError : GoError :=
  .wrapping "cannot execute query" (.ErrorWithStatusCode (.errorf "too many series" []) 400)

/-- An error that carries the code 0, which `w.WriteHeader` rejects. -/
def sampleInvalidStatusError : GoError :=
  .ErrorWithStatusCode (.errorf "status code is not set" []) 0

/-- An environment in which the query deadline hint is `d`, the path parses
to `p`, the tenant token is valid and every endpoint function returns `res`;
no other request releases a slot. -/
def sampleEnv (d : Int) (p : Path) (res : Option GoError) : Env :=
  { GetMaxQueryDuration := fun _ => d,
    ParsePath := fun _ => .ok p,
    NewToken := fun _ => .ok sampleToken,
    handlerResult := fun _ => res,
    releasedWhileQueued := false }

/-- A request for the export endpoint of tenant `0`. -/
def exportRequest : Request :=
  { RequestURI := "/select/0/loki/api/v1/export", URLPath := "/select/0/loki/api/v1/export" }

/-- The parsed path of `exportRequest`. -/
def exportPath : Path := { Prefix := "select", AuthToken := "0", Suffix := "loki/api/v1/export" }

/-- A request for the query endpoint of tenant `0`. -/
def queryRequest : Request :=
  { RequestURI := "/select/0/loki/api/v1/query", URLPath := "/select/0/loki/api/v1/query" }

/-- The parsed path of `queryRequest`. -/
def queryPath : Path := { Prefix := "select", AuthToken := "0", Suffix := "loki/api/v1/query" }

/-- A path under a family that `requestHandler` does not serve. -/
def insertPath : Path := { Prefix := "insert", AuthToken := "0", Suffix := "loki/api/v1/push" }

/-! ## `getDefaultMaxConcurrentRequests` -/

/-- Go `int` on a 64-bit platform: an integer wrapped into the range of
`int64`. -/
def wrapInt64 (x : Int) : Int :=
  (x + 9223372036854775808) % 18446744073709551616 - 9223372036854775808

/-- The function `getDefaultMaxConcurrentRequests`; `gomaxprocs` is the value
returned by `runtime.GOMAXPROCS(-1)`. -/
def getDefaultMaxConcurrentRequests (gomaxprocs : Int) : Int :=
  let n := gomaxprocs
  let n := if n ≤ 4 then wrapInt64 (n * 2) else n
  if n > 16 then 16 else n

/-! ## `main`: startup and shutdown -/

/-- The command-line flags read by `main`. -/
structure Flags where
  httpListenAddr : String
  cacheDataPath : String
  maxConcurrentRequests : Int
  storageNodes : List String
  deriving DecidableEq, Repr

/-- The calls of `main`, in program order. -/
inductive MainEvent where
  | SetOutput
  | envflagParse
  | buildinfoInit
  | loggerInit
  | UpdateGOMAXPROCSToCPUQuota
  /-- The call `logger.Infof(format, ...)`. -/
  | Infof (format : String)
  /-- The call `logger.Fatalf(format, ...)`, which ends the process. -/
  | Fatalf (format : String)
  | SetMinScrapeIntervalForDeduplication
  /-- The call `netstorage.InitStorageNodes(*storageNodes)`. -/
  | InitStorageNodes (addrs : List String)
  /-- The call `fs.RemoveDirContents(path)`. -/
  | RemoveDirContents (path : String)
  /-- The call `netstorage.InitTmpBlocksDir(path)`. -/
  | InitTmpBlocksDir (path : String)
  /-- The statement `concurrencyCh = make(chan struct{}, n)`. -/
  | makeChan (n : Int)
  /-- The statement `go func() { httpserver.Serve(addr, requestHandler) }()`. -/
  | goServe (addr : String)
  /-- The call `procutil.WaitForSigterm()`. -/
  | WaitForSigterm
  /-- The call `httpserver.Stop(addr)` together with the error it returned
  (`none` is `nil`). -/
  | httpserverStop (addr : String) (err : Option GoError)
  /-- The call `netstorage.Stop()`, which has returned. -/
  | netstorageStop
  /-- The call `fs.MustStopDirRemover()`. -/
  | MustStopDirRemover
  deriving DecidableEq, Repr

/-- How a run of `main` ends. -/
inductive Exit where
  /-- The function `main` returns. -/
  | returned
  /-- The process is ended by `logger.Fatalf`. -/
  | fatal
  /-- The statement `make(chan struct{}, n)` panics on a negative `n`. -/
  | panicked
  /-- No termination signal arrives: `main` stays in `WaitForSigterm`. -/
  | waiting
  deriving DecidableEq, Repr

/-- The part of `main` from `procutil.WaitForSigterm()` on: `signal` is the
termination signal, if one arrives, and `stopErr` the error returned by
`httpserver.Stop`. -/
def mainShutdown (flags : Flags) (signal : Option String) (stopErr : Option GoError) :
    List MainEvent × Exit :=
  match signal with
  | none => ([.WaitForSigterm], .waiting)
  | some _ =>
    match stopErr with
    | some err =>
      ([ .WaitForSigterm, .Infof "service received signal %s",
         .Infof "gracefully shutting down http service at %q",
         .httpserverStop flags.httpListenAddr (some err),
         .Fatalf "cannot stop http service: %s" ], .fatal)
    | none =>
      ([ .WaitForSigterm, .Infof "service received signal %s",
         .Infof "gracefully shutting down http service at %q",
         .httpserverStop flags.httpListenAddr none,
         .Infof "successfully shut down http service in %.3f seconds",
         .Infof "shutting down neststorage...",
         .netstorageStop,
         .Infof "successfully stopped netstorage in %.3f seconds",
         .MustStopDirRemover,
         .Infof "the vmselect has been stopped" ], .returned)

/-- The part of `main` before `procutil.WaitForSigterm()`; the second
component is `none` when the startup completes. -/
def mainStartup (flags : Flags) : List MainEvent × Option Exit :=
  let init : List MainEvent :=
    [ .SetOutput, .envflagParse, .buildinfoInit, .loggerInit, .UpdateGOMAXPROCSToCPUQuota,
      .Infof "starting netstorage at storageNodes %s", .SetMinScrapeIntervalForDeduplication ]
  if flags.storageNodes.length = 0 then
    (init ++ [.Fatalf "missing -storageNode arg"], some .fatal)
  else
    let dirs : List MainEvent :=
      if len flags.cacheDataPath > 0 then
        [ .RemoveDirContents (flags.cacheDataPath ++ "/tmp"),
          .InitTmpBlocksDir (flags.cacheDataPath ++ "/tmp") ]
      else [ .InitTmpBlocksDir "" ]
    let started := init ++ [ .InitStorageNodes flags.storageNodes,
      .Infof "started netstorage in %.3f seconds" ] ++ dirs
    if flags.maxConcurrentRequests < 0 then
      (started ++ [.makeChan flags.maxConcurrentRequests], some .panicked)
    else
      (started ++ [.makeChan flags.maxConcurrentRequests, .goServe flags.httpListenAddr], none)

/-- The function `main`. -/
def main (flags : Flags) (signal : Option String) (stopErr : Option GoError) :
    List MainEvent × Exit :=
  match (mainStartup flags).2 with
  | some exit => ((mainStartup flags).1, exit)
  | none =>
    ((mainStartup flags).1 ++ (mainShutdown flags signal stopErr).1,
      (mainShutdown flags signal stopErr).2)

/-- In the trace `tr`, every occurrence of `b` comes after an occurrence of
`a`. -/
def OnlyAfter (a b : MainEvent) (tr : List MainEvent) : Prop :=
  ∀ pre post : List MainEvent, tr = pre ++ b :: post → a ∈ pre

/-- Events of the shutdown that stop a subsystem. -/
def MainEvent.isStop : MainEvent → Bool
  | .httpserverStop _ _ | .netstorageStop | .MustStopDirRemover => true
  | _ => false

/-! ## Sequences of requests -/

/-- The events of a sequence of calls of `requestHandler`, one after the
other, each on the channel the previous one left. -/
def handleAll (cfg : Config) : Chan → List (Env × Request) → List Event
  | _, [] => []
  | ch, (env, r) :: rest =>
    (requestHandler cfg env ch r).trace ++
      handleAll cfg (requestHandler cfg env ch r).ch rest

/-! ## Sample flags -/

/-- Flags with one storage node and the default listen address. -/
def sampleFlags : Flags :=
  { httpListenAddr := ":8481", cacheDataPath := "", maxConcurrentRequests := 2,
    storageNodes := ["vmstorage-host1:8401"] }

/-! # Properties -/

/-! ## The gate under interleaved requests -/

theorem Sys.inv_init (capacity : Int) (h : 0 ≤ capacity) : (Sys.init capacity).Inv capacity := by
  simp [Sys.Inv, Sys.init, Chan.make, h]

/-- What an enabled step does to the channel and to the number of holders. -/
theorem step_effect (s s1 : Sys) (st : Step) (h : step s st = some s1) :
    s1.ch.cap = s.ch.cap ∧
    match st with
    | .sendImmediate => s.ch.len < s.ch.cap ∧ s1.ch.len = s.ch.len + 1 ∧ s1.holders = s.holders + 1
    | .sendQueued => s.ch.len < s.ch.cap ∧ s1.ch.len = s.ch.len + 1 ∧ s1.holders = s.holders + 1
    | .enterQueue => s1.ch.len = s.ch.len ∧ s1.holders = s.holders
    | .timerFired => s1.ch.len = s.ch.len ∧ s1.holders = s.holders
    | .release => 0 < s.holders ∧ s1.ch.len = s.ch.len - 1 ∧ s1.holders + 1 = s.holders := by
  cases st <;> simp only [step, Chan.canSend, decide_eq_true_eq] at h <;> split at h <;>
    simp only [Option.some.injEq, reduceCtorEq] at h <;>
    (subst h; simp_all [Chan.send, Chan.recv] <;> omega)

theorem step_inv (capacity : Int) (s s1 : Sys) (st : Step) (hs : s.Inv capacity)
    (h : step s st = some s1) : s1.Inv capacity := by
  obtain ⟨hc, hl, hle⟩ := hs
  have he := step_effect s s1 st h
  cases st <;> simp only at he <;> refine ⟨by omega, by omega, by omega⟩

theorem run_inv (capacity : Int) (steps : List Step) :
    ∀ s s1 : Sys, s.Inv capacity → run s steps = some s1 → s1.Inv capacity := by
  induction steps with
  | nil => intro s s1 hs h; simp [run] at h; subst h; exact hs
  | cons st rest ih =>
    intro s s1 hs h
    simp only [run] at h
    cases hst : step s st with
    | none => simp [hst] at h
    | some s2 =>
      simp only [hst, Option.bind_some] at h
      exact ih s2 s1 (step_inv capacity s s2 st hs hst) h

/-- C1: for every capacity `>= 0` and every finite sequence of gate steps
(immediate send, entering the queue, queued send, timer, deferred release)
from the empty channel, the state reached satisfies
`0 <= occupied <= capacity`; moreover, in that state a send step is enabled
only when `occupied < capacity` and adds exactly one, entering the queue and
the timer leave `occupied` unchanged, and a release is enabled only when
there is a holder and subtracts exactly one. -/
theorem gate_occupied_within_capacity (capacity : Int) (hcap : 0 ≤ capacity)
    (steps : List Step) (s : Sys) (hrun : run (Sys.init capacity) steps = some s) :
    (0 ≤ s.ch.len ∧ s.ch.len ≤ s.ch.cap ∧ s.ch.cap = capacity) ∧
    ∀ (st : Step) (s1 : Sys), step s st = some s1 →
      match st with
      | .sendImmediate => s.ch.len < s.ch.cap ∧ s1.ch.len = s.ch.len + 1
      | .sendQueued => s.ch.len < s.ch.cap ∧ s1.ch.len = s.ch.len + 1
      | .enterQueue => s1.ch.len = s.ch.len
      | .timerFired => s1.ch.len = s.ch.len
      | .release => 0 < s.holders ∧ s1.ch.len = s.ch.len - 1 := by
  obtain ⟨hc, hl, hle⟩ := run_inv capacity steps _ s (Sys.inv_init capacity hcap) hrun
  refine ⟨⟨by omega, hle, hc⟩, ?_⟩
  intro st s1 h
  have he := (step_effect s s1 st h).2
  cases st <;> simp only at he ⊢ <;> simp [he]

/-- C1 at capacity 2: two immediate sends, a third request that queues, a
release and the queued send. -/
theorem gate_occupied_within_capacity_witness :
    (0 : Int) ≤ 2 ∧
    run (Sys.init 2) [.sendImmediate, .sendImmediate, .enterQueue, .release, .sendQueued]
      = some { ch := { cap := 2, len := 2 }, queued := 0, holders := 2,
               limitReached := 1, limitTimeout := 0 } ∧
    ((0 : Int) ≤ 2 ∧ (2 : Int) ≤ 2 ∧ (2 : Int) = 2) :=
  ⟨by decide, by decide,
    (gate_occupied_within_capacity 2 (by decide)
      [.sendImmediate, .sendImmediate, .enterQueue, .release, .sendQueued]
      { ch := { cap := 2, len := 2 }, queued := 0, holders := 2,
        limitReached := 1, limitTimeout := 0 }
      (by decide)).1⟩

/-! ## The events of the router -/

theorem all_ite {c : Prop} [Decidable c] {a b : Bool × List Event} (q : Event → Bool)
    (ha : a.2.all q = true) (hb : b.2.all q = true) :
    (if c then a else b).2.all q = true := by
  split <;> assumption

/-- The events of `sendPrometheusError`, with the status code named. -/
theorem sendPrometheusError_eq (r : Request) (e : GoError) :
    sendPrometheusError r e =
      [ .Warnf "error in %q: %s" [.str r.RequestURI, .err e],
        .HeaderSet "Content-Type" "application/json",
        .WriteHeader (statusFor e) ] ++
      (if validWriteHeaderCode (statusFor e) then [.WriteErrorResponse (statusFor e) e]
        else [.WriteHeaderPanic (statusFor e)]) := by
  unfold sendPrometheusError statusFor
  cases errorsAs e <;> rfl

theorem sendPrometheusError_fromRouter (r : Request) (err : GoError) :
    (sendPrometheusError r err).all Event.fromRouter = true := by
  rw [sendPrometheusError_eq]
  cases validWriteHeaderCode (statusFor err) <;> rfl

theorem sendPlainError_fromRouter (r : Request) (err : GoError) :
    (sendPlainError r err).all Event.fromRouter = true := rfl

theorem serve_fromRouter (env : Env) (requests errors : Counter) (cors : Bool) (h : Handler)
    (onErr : GoError → List Event) (hr : requests.isGate = false) (he : errors.isGate = false)
    (hon : ∀ err, (onErr err).all Event.fromRouter = true) :
    (serve env requests errors cors h onErr).2.all Event.fromRouter = true := by
  unfold serve
  cases env.handlerResult h <;> cases cors <;>
    simp [List.all_append, Event.fromRouter, hr, he, hon]

theorem selectHandler_fromRouter (env : Env) (r : Request) (p : Path) (tok : Token) :
    (selectHandler env r p tok).2.all Event.fromRouter = true := by
  have h1 := sendPrometheusError_fromRouter r
  have h2 := sendPlainError_fromRouter r
  unfold selectHandler selectSwitch
  repeat' apply all_ite
  all_goals
    first
    | exact serve_fromRouter _ _ _ _ _ _ rfl rfl h1
    | exact serve_fromRouter _ _ _ _ _ _ rfl rfl h2
    | rfl

theorem deleteHandler_fromRouter (env : Env) (r : Request) (p : Path) (tok : Token) :
    (deleteHandler env r p tok).2.all Event.fromRouter = true := by
  have h2 := sendPlainError_fromRouter r
  unfold deleteHandler
  apply all_ite
  · cases env.handlerResult (.DeleteHandler tok) <;>
      simp [List.all_append, Event.fromRouter, Counter.isGate, h2]
  · rfl

/-- The code after the gate touches neither the channel, nor the timer, nor
the counters of the gate. -/
theorem routeRequest_fromRouter (env : Env) (r : Request) :
    (routeRequest env r).2.all Event.fromRouter = true := by
  cases hP : env.ParsePath (Replace r.URLPath "//" "/") with
  | error err => simp only [routeRequest, hP]; rfl
  | ok p =>
    cases hT : env.NewToken p.AuthToken with
    | error err => simp only [routeRequest, hP, hT]; rfl
    | ok tok =>
      have hs := selectHandler_fromRouter env r p tok
      have hd := deleteHandler_fromRouter env r p tok
      simp only [routeRequest, hP, hT]
      split
      · simp only [List.all_append, hs]; rfl
      · split
        · simp only [List.all_append, hd]; rfl
        · rfl

theorem mem_routeRequest_fromRouter (env : Env) (r : Request) (e : Event)
    (he : e ∈ (routeRequest env r).2) : e.fromRouter = true :=
  List.all_eq_true.1 (routeRequest_fromRouter env r) e he

theorem count_eq_zero_of_all {q : Event → Bool} {tr : List Event} (h : tr.all q = true)
    (e : Event) (he : q e = false) : tr.count e = 0 := by
  rw [List.count_eq_zero]
  intro hm
  have := List.all_eq_true.1 h e hm
  simp [he] at this

/-- The first event after the gate is the call of the path parser on the
normalised path. -/
theorem routeRequest_head (env : Env) (r : Request) :
    (routeRequest env r).2.head? = some (.ParsePath (Replace r.URLPath "//" "/")) := by
  cases hP : env.ParsePath (Replace r.URLPath "//" "/") with
  | error err => simp only [routeRequest, hP]; rfl
  | ok p =>
    cases hT : env.NewToken p.AuthToken with
    | error err => simp only [routeRequest, hP, hT]; rfl
    | ok tok =>
      simp only [routeRequest, hP, hT]
      split
      · rfl
      · split <;> rfl

/-! ## One request at the gate -/

theorem gateSelect_alone (env : Env) (ch : Chan) (h : env.releasedWhileQueued = false) :
    gateSelect env ch = if ch.canSend then (.immediate, ch.send) else (.timedOut, ch) := by
  simp [gateSelect, h]

theorem gateSelect_full (env : Env) (ch : Chan) (hfull : ch.canSend = false)
    (h : env.releasedWhileQueued = false) : gateSelect env ch = (.timedOut, ch) := by
  simp [gateSelect, h, hfull]

theorem gateSelect_not_immediate (env : Env) (ch : Chan) (hfull : ch.canSend = false) :
    (gateSelect env ch).1 ≠ .immediate := by
  unfold gateSelect
  rw [hfull]
  simp only [Bool.false_eq_true, if_false]
  split
  · split <;> simp
  · simp

theorem Chan.send_recv (ch : Chan) : ch.send.recv = ch := by
  cases ch; simp [Chan.send, Chan.recv]

theorem iterate_send (ch : Chan) (n : Nat) :
    (Chan.send^[n] ch) = { cap := ch.cap, len := ch.len + n } := by
  induction n generalizing ch with
  | zero => simp
  | succ k ih => rw [Function.iterate_succ_apply, ih]; simp [Chan.send]; omega

/-- C2: for every request and every outcome of `requestHandler`, the call
sends on `concurrencyCh` as often as it receives from it, and at most once;
and when no other request releases a slot meanwhile, the channel at return is
the channel at the call, so the occupied count is unchanged. -/
theorem requestHandler_restores_gate (cfg : Config) (env : Env) (ch : Chan) (r : Request) :
    ((requestHandler cfg env ch r).trace.count .chanSend
        = (requestHandler cfg env ch r).trace.count .chanRecv ∧
      (requestHandler cfg env ch r).trace.count .chanSend ≤ 1) ∧
    (env.releasedWhileQueued = false → (requestHandler cfg env ch r).ch = ch) := by
  have hS := count_eq_zero_of_all (routeRequest_fromRouter env r) .chanSend rfl
  have hR := count_eq_zero_of_all (routeRequest_fromRouter env r) .chanRecv rfl
  constructor
  · unfold requestHandler
    split
    · simp
    · split <;> simp [List.count_cons, hS, hR]
  · intro hrel
    unfold requestHandler
    rw [gateSelect_alone env ch hrel]
    split
    · rfl
    · by_cases hc : ch.canSend = true <;> simp [hc, Chan.send_recv]

/-- C2 on a handler error: the query endpoint fails while one of two slots is
taken; the slot of the request is released on return. -/
theorem requestHandler_restores_gate_witness :
    (sampleEnv 30 queryPath (some sampleError)).releasedWhileQueued = false ∧
    (requestHandler sampleConfig (sampleEnv 30 queryPath (some sampleError))
      { cap := 2, len := 1 } queryRequest).ch = { cap := 2, len := 1 } :=
  ⟨rfl, (requestHandler_restores_gate sampleConfig (sampleEnv 30 queryPath (some sampleError))
    { cap := 2, len := 1 } queryRequest).2 rfl⟩

/-- C3: for every capacity `N`, after `N` sends with no receive the channel
holds `N` slots, and a further request (one that reaches the gate, its URI
is not `/`) whose wait is `0`, while no holder releases a slot, times out:
`requestHandler` hands the 503 error to `httpserver.Errorf`, returns `true`,
calls no endpoint function and no path parser, and the channel still holds
`N` slots. -/
theorem full_gate_zero_wait_times_out (cfg : Config) (env : Env) (r : Request) (N : Nat)
    (hreq : r.RequestURI ≠ "/") (hnorel : env.releasedWhileQueued = false)
    (hwait : queueWait cfg env r = 0) :
    (Chan.send^[N] (Chan.make N)).len = N ∧
    requestHandler cfg env (Chan.send^[N] (Chan.make N)) r =
      { ret := true, ch := { cap := N, len := N },
        trace := [.inc .concurrencyLimitReached, .timerGet 0, .timerPut,
          .inc .concurrencyLimitTimeout,
          .Errorf "%s" [.err (.ErrorWithStatusCode
            (.errorf queueTimeoutFormat [.int cfg.maxConcurrentRequests, .duration 0])
            StatusServiceUnavailable)]] } ∧
    (∀ e ∈ (requestHandler cfg env (Chan.send^[N] (Chan.make N)) r).trace,
      e.isCall = false ∧ ∀ path, e ≠ .ParsePath path) := by
  have hch : Chan.send^[N] (Chan.make N) = { cap := N, len := N } := by
    rw [iterate_send]; simp [Chan.make]
  have hres : requestHandler cfg env (Chan.send^[N] (Chan.make N)) r =
      { ret := true, ch := { cap := N, len := N },
        trace := [.inc .concurrencyLimitReached, .timerGet 0, .timerPut,
          .inc .concurrencyLimitTimeout,
          .Errorf "%s" [.err (.ErrorWithStatusCode
            (.errorf queueTimeoutFormat [.int cfg.maxConcurrentRequests, .duration 0])
            StatusServiceUnavailable)]] } := by
    rw [hch]
    unfold requestHandler
    rw [if_neg hreq, gateSelect_full env _ (by simp [Chan.canSend]) hnorel, hwait]
  refine ⟨by rw [hch], hres, ?_⟩
  rw [hres]
  intro e he
  simp only [List.mem_cons, List.mem_singleton, List.not_mem_nil, or_false] at he
  rcases he with rfl | rfl | rfl | rfl | rfl <;> simp [Event.isCall]

/-- C3 at capacity 2 with a query deadline hint of `0`. -/
theorem full_gate_zero_wait_times_out_witness :
    queryRequest.RequestURI ≠ "/" ∧
    (sampleEnv 0 queryPath none).releasedWhileQueued = false ∧
    queueWait sampleConfig (sampleEnv 0 queryPath none) queryRequest = 0 ∧
    (requestHandler sampleConfig (sampleEnv 0 queryPath none)
      (Chan.send^[2] (Chan.make ((2 : Nat) : Int))) queryRequest).ret = true :=
  ⟨by decide, rfl, by decide,
    congrArg Result.ret (full_gate_zero_wait_times_out sampleConfig
      (sampleEnv 0 queryPath none) queryRequest 2 (by decide) rfl (by decide)).2.1⟩

/-- C4: for every hint `h = GetMaxQueryDuration(r)` and ceiling
`c = -search.maxQueueDuration`, when the gate is full the only timer armed
has duration `min h c`, which never exceeds `c`, and when the wait times out
the only error handed to `httpserver.Errorf` reports the duration
`min h c`. -/
theorem queue_wait_is_min (cfg : Config) (env : Env) (ch : Chan) (r : Request)
    (hreq : r.RequestURI ≠ "/") (hfull : ch.canSend = false) :
    queueWait cfg env r = min (env.GetMaxQueryDuration r) cfg.maxQueueDuration ∧
    queueWait cfg env r ≤ cfg.maxQueueDuration ∧
    (∀ d, Event.timerGet d ∈ (requestHandler cfg env ch r).trace ↔
      d = min (env.GetMaxQueryDuration r) cfg.maxQueueDuration) ∧
    ((gateSelect env ch).1 = .timedOut →
      ∀ format args, Event.Errorf format args ∈ (requestHandler cfg env ch r).trace ↔
        (format = "%s" ∧ args = [.err (.ErrorWithStatusCode
          (.errorf queueTimeoutFormat [.int cfg.maxConcurrentRequests,
            .duration (min (env.GetMaxQueryDuration r) cfg.maxQueueDuration)])
          StatusServiceUnavailable)])) := by
  have hmin : queueWait cfg env r = min (env.GetMaxQueryDuration r) cfg.maxQueueDuration := by
    unfold queueWait
    simp only
    split <;> omega
  have hnot : ∀ d, Event.timerGet d ∉ (routeRequest env r).2 := by
    intro d hd
    have := mem_routeRequest_fromRouter env r _ hd
    simp [Event.fromRouter] at this
  have hsel := gateSelect_not_immediate env ch hfull
  refine ⟨hmin, by omega, ?_, ?_⟩
  · intro d
    unfold requestHandler
    rw [if_neg hreq, ← hmin]
    rcases hg : gateSelect env ch with ⟨a, ch1⟩
    rw [hg] at hsel
    cases a
    · exact absurd rfl hsel
    · simp [hnot, eq_comm]
    · simp [eq_comm]
  · intro hto format args
    unfold requestHandler
    rw [if_neg hreq, ← hmin]
    rcases hg : gateSelect env ch with ⟨a, ch1⟩
    rw [hg] at hto
    simp only at hto
    subst hto
    simp

/-- C4 with a hint of thirty seconds and a ceiling of ten: the timer is armed
with ten seconds. -/
theorem queue_wait_is_min_witness :
    queryRequest.RequestURI ≠ "/" ∧ (Chan.mk 2 2).canSend = false ∧
    queueWait sampleConfig (sampleEnv 30000000000 queryPath none) queryRequest = 10000000000 :=
  ⟨by decide, by decide,
    (queue_wait_is_min sampleConfig (sampleEnv 30000000000 queryPath none) (Chan.mk 2 2)
      queryRequest (by decide) (by decide)).1.trans (by decide)⟩

/-- C6: for every request that is admitted by the gate and whose path parses
with a valid tenant token into a `Prefix` other than `select` and `delete`,
`requestHandler` returns `false`, and none of its actions writes to the
response, calls an endpoint function or increments an endpoint counter. -/
theorem unknown_prefix_not_mine (cfg : Config) (env : Env) (ch : Chan) (r : Request)
    (p : Path) (tok : Token) (hreq : r.RequestURI ≠ "/")
    (hadmitted : (gateSelect env ch).1 ≠ .timedOut)
    (hparse : env.ParsePath (Replace r.URLPath "//" "/") = .ok p)
    (htoken : env.NewToken p.AuthToken = .ok tok)
    (hselect : p.Prefix ≠ "select") (hdelete : p.Prefix ≠ "delete") :
    (requestHandler cfg env ch r).ret = false ∧
    ∀ e ∈ (requestHandler cfg env ch r).trace,
      e.writesResponse = false ∧ e.isCall = false ∧ e.isEndpointInc = false := by
  have hroute : routeRequest env r =
      (false, [.ParsePath (Replace r.URLPath "//" "/"), .NewToken p.AuthToken]) := by
    simp only [routeRequest, hparse, htoken, if_neg hselect, if_neg hdelete]
  unfold requestHandler
  rw [if_neg hreq, hroute]
  rcases hg : gateSelect env ch with ⟨a, ch1⟩
  rw [hg] at hadmitted
  cases a
  · simp [Event.writesResponse, Event.isCall, Event.isEndpointInc]
  · simp [Event.writesResponse, Event.isCall, Event.isEndpointInc, Counter.isGate]
  · exact absurd rfl hadmitted

/-- C6 for a path under the `insert` family. -/
theorem unknown_prefix_not_mine_witness :
    queryRequest.RequestURI ≠ "/" ∧
    (gateSelect (sampleEnv 30 insertPath none) (Chan.mk 2 0)).1 ≠ .timedOut ∧
    insertPath.Prefix ≠ "select" ∧ insertPath.Prefix ≠ "delete" ∧
    (requestHandler sampleConfig (sampleEnv 30 insertPath none) (Chan.mk 2 0) queryRequest).ret
      = false :=
  ⟨by decide, by decide, by decide, by decide,
    (unknown_prefix_not_mine sampleConfig (sampleEnv 30 insertPath none) (Chan.mk 2 0)
      queryRequest insertPath sampleToken (by decide) (by decide) rfl rfl (by decide)
      (by decide)).1⟩

/-! ## The route table of the select family -/


/-- No exact-match string of the `switch` matches the parametric pattern. -/
theorem exact_not_parametric : ∀ s ∈ exactStrings, matchesLabelValues s = false := by
  decide

theorem exact_subset (rt : SelectRoute) : ∀ s ∈ rt.exact, s ∈ exactStrings := by
  cases rt <;> decide

/-- Two different routes share no exact-match string. -/
theorem exact_disjoint : ∀ a ∈ SelectRoute.all, ∀ b ∈ SelectRoute.all, a ≠ b →
    ∀ s ∈ a.exact, s ∉ b.exact := by
  decide

theorem mem_all (rt : SelectRoute) : rt ∈ SelectRoute.all := by
  cases rt <;> decide

theorem matches_exact (rt : SelectRoute) (suffix : String) (hrt : rt ≠ .LabelValues) :
    rt.matches suffix = true ↔ suffix ∈ rt.exact := by
  cases rt <;> first | exact absurd rfl hrt | simp [SelectRoute.matches]

/-- At most one route matches a suffix. -/
theorem matches_unique (suffix : String) (a b : SelectRoute)
    (ha : a.matches suffix = true) (hb : b.matches suffix = true) : a = b := by
  by_contra hne
  by_cases hA : a = .LabelValues
  · subst hA
    have hb1 := (matches_exact b suffix (Ne.symm hne)).1 hb
    have := exact_not_parametric suffix (exact_subset b suffix hb1)
    simp [SelectRoute.matches] at ha
    simp [ha] at this
  · by_cases hB : b = .LabelValues
    · subst hB
      have ha1 := (matches_exact a suffix hA).1 ha
      have := exact_not_parametric suffix (exact_subset a suffix ha1)
      simp [SelectRoute.matches] at hb
      simp [hb] at this
    · have ha1 := (matches_exact a suffix hA).1 ha
      have hb1 := (matches_exact b suffix hB).1 hb
      exact exact_disjoint a (mem_all a) b (mem_all b) hne suffix ha1 hb1

theorem selectHandler_parametric (env : Env) (r : Request) (p : Path) (tok : Token)
    (h : matchesLabelValues p.Suffix = true) :
    selectHandler env r p tok =
      serve env .labelValuesRequests .labelValuesErrors true
        (.LabelValuesHandler tok (labelNameOf p.Suffix)) (sendPrometheusError r) := by
  simp only [matchesLabelValues, Bool.and_eq_true] at h
  simp only [selectHandler, h, and_self, if_true, labelNameOf]

theorem selectHandler_not_parametric (env : Env) (r : Request) (p : Path) (tok : Token)
    (h : matchesLabelValues p.Suffix = false) :
    selectHandler env r p tok = selectSwitch env r p tok (false, []) := by
  have h2 : ¬ (HasPrefix p.Suffix "loki/api/v1/label/" = true ∧
      HasSuffix (sliceFrom p.Suffix (len "loki/api/v1/label/")) "/values" = true) := by
    intro hc
    simp [matchesLabelValues, hc] at h
  simp only [selectHandler, if_neg h2]

/-- On an exact-match string the `switch` runs the route that lists it,
whatever its `default` case is. -/
theorem selectSwitch_exact (env : Env) (r : Request) (pre auth : String) (tok : Token)
    (orElse : Bool × List Event) :
    ∀ rt ∈ SelectRoute.all, ∀ s ∈ rt.exact,
      selectSwitch env r ⟨pre, auth, s⟩ tok orElse = rt.run env r s tok := by
  intro rt hrt s hs
  simp only [SelectRoute.all, List.mem_cons, List.mem_singleton, List.not_mem_nil, or_false] at hrt
  rcases hrt with rfl | rfl | rfl | rfl | rfl | rfl | rfl | rfl | rfl | rfl | rfl | rfl | rfl <;>
    simp only [SelectRoute.exact, List.mem_cons, List.mem_singleton, List.not_mem_nil, or_false] at hs
  all_goals first
    | (subst hs; rfl)
    | (rcases hs with rfl | rfl <;> rfl)

/-- On any other string the `switch` takes its `default` case. -/
theorem selectSwitch_default (env : Env) (r : Request) (p : Path) (tok : Token)
    (orElse : Bool × List Event) (h : p.Suffix ∉ exactStrings) :
    selectSwitch env r p tok orElse = orElse := by
  simp only [exactStrings, List.mem_cons, List.mem_singleton, List.not_mem_nil, or_false, not_or] at h
  obtain ⟨h1, h2, h3, h4, h5, h6, h7, h8, h9, h10, h11, h12, h13⟩ := h
  simp only [selectSwitch, if_neg h1, if_neg h2, if_neg h3, if_neg h4, if_neg h5, h6, h7,
    if_neg h8, if_neg h9, if_neg h10, if_neg h11, if_neg h12, if_neg h13, or_self, if_false]


theorem find_unique {α : Type} (q : α → Bool) (l : List α) (x : α) (hx : x ∈ l) (hq : q x = true)
    (huniq : ∀ y ∈ l, q y = true → y = x) : l.find? q = some x := by
  induction l with
  | nil => simp at hx
  | cons a rest ih =>
    by_cases ha : q a = true
    · have := huniq a (List.mem_cons_self a rest) ha
      subst this
      simp [List.find?, ha]
    · have hne : x ≠ a := fun h => ha (h ▸ hq)
      have hx2 : x ∈ rest := by
        rcases List.mem_cons.1 hx with h | h
        · exact absurd h hne
        · exact h
      simp only [List.find?, Bool.not_eq_true] at ha ⊢
      rw [ha]
      exact ih hx2 (fun y hy => huniq y (List.mem_cons_of_mem a hy))

theorem exists_route_of_exact : ∀ s ∈ exactStrings, ∃ rt ∈ SelectRoute.all,
    rt ≠ .LabelValues ∧ s ∈ rt.exact := by
  decide

theorem run_labelValues (env : Env) (r : Request) (suffix : String) (tok : Token) :
    SelectRoute.LabelValues.run env r suffix tok =
      serve env .labelValuesRequests .labelValuesErrors true
        (.LabelValuesHandler tok (labelNameOf suffix)) (sendPrometheusError r) := rfl

/-- The function `selectHandler` is the lookup in the route table. -/
theorem selectHandler_eq_table (env : Env) (r : Request) (p : Path) (tok : Token) :
    selectHandler env r p tok = selectHandlerTable env r p tok := by
  obtain ⟨pre, auth, suffix⟩ := p
  unfold selectHandlerTable
  cases hm : matchesLabelValues suffix with
  | true =>
    rw [selectHandler_parametric env r _ tok hm,
      find_unique _ _ .LabelValues (mem_all _) hm
        (fun y _ hy => matches_unique suffix y .LabelValues hy hm)]
    rfl
  | false =>
    rw [selectHandler_not_parametric env r _ tok hm]
    by_cases hex : suffix ∈ exactStrings
    · obtain ⟨rt, hrt, hne, hs⟩ := exists_route_of_exact suffix hex
      have hmatch : rt.matches suffix = true := (matches_exact rt suffix hne).2 hs
      rw [find_unique _ _ rt hrt hmatch (fun y _ hy => matches_unique suffix y rt hy hmatch)]
      exact selectSwitch_exact env r pre auth tok _ rt hrt suffix hs
    · rw [selectSwitch_default env r _ tok _ hex]
      have hnone : SelectRoute.all.find? (fun rt => rt.matches suffix) = none := by
        rw [List.find?_eq_none]
        intro rt _ hmatch
        by_cases hrt : rt = .LabelValues
        · subst hrt
          simp [SelectRoute.matches, hm] at hmatch
        · exact hex (exact_subset rt suffix ((matches_exact rt suffix hrt).1 hmatch))
      rw [hnone]

/-- Evaluating the `switch` before the parametric check changes nothing. -/
theorem selectHandlerSwitchFirst_eq (env : Env) (r : Request) (p : Path) (tok : Token) :
    selectHandlerSwitchFirst env r p tok = selectHandler env r p tok := by
  obtain ⟨pre, auth, suffix⟩ := p
  by_cases hex : suffix ∈ exactStrings
  · have hm := exact_not_parametric suffix hex
    obtain ⟨rt, hrt, _, hs⟩ := exists_route_of_exact suffix hex
    rw [selectHandler_not_parametric env r _ tok hm]
    unfold selectHandlerSwitchFirst
    rw [selectSwitch_exact env r pre auth tok _ rt hrt suffix hs,
      selectSwitch_exact env r pre auth tok _ rt hrt suffix hs]
  · unfold selectHandlerSwitchFirst
    rw [selectSwitch_default env r _ tok _ hex]
    cases hm : matchesLabelValues suffix with
    | true =>
      rw [selectHandler_parametric env r _ tok hm]
      simp only [matchesLabelValues, Bool.and_eq_true] at hm
      simp only [hm, and_self, if_true, labelNameOf]
    | false =>
      rw [selectHandler_not_parametric env r _ tok hm, selectSwitch_default env r _ tok _ hex]
      have h2 : ¬ (HasPrefix suffix "loki/api/v1/label/" = true ∧
          HasSuffix (sliceFrom suffix (len "loki/api/v1/label/")) "/values" = true) := by
        intro hc
        simp [matchesLabelValues, hc] at hm
      simp only [if_neg h2]

/-- C7: the route table of the select family is unambiguous: for every
suffix at most one route matches; a suffix that matches the parametric
pattern is none of the exact-match strings of the `switch`; `selectHandler`
is the lookup in that table, and it computes the same result when the
`switch` is evaluated before the parametric check. -/
theorem select_routes_unambiguous (suffix : String) :
    (∀ a b : SelectRoute, a.matches suffix = true → b.matches suffix = true → a = b) ∧
    (matchesLabelValues suffix = true → suffix ∉ exactStrings) ∧
    (∀ (env : Env) (r : Request) (pre auth : String) (tok : Token),
      selectHandler env r ⟨pre, auth, suffix⟩ tok
          = selectHandlerTable env r ⟨pre, auth, suffix⟩ tok ∧
        selectHandlerSwitchFirst env r ⟨pre, auth, suffix⟩ tok
          = selectHandler env r ⟨pre, auth, suffix⟩ tok) := by
  refine ⟨matches_unique suffix, ?_, ?_⟩
  · intro hm hex
    have := exact_not_parametric suffix hex
    simp [hm] at this
  · intro env r pre auth tok
    exact ⟨selectHandler_eq_table env r _ tok, selectHandlerSwitchFirst_eq env r _ tok⟩

/-- C7 on the suffix `loki/api/v1/label/region/values`, which matches the
parametric pattern. -/
theorem select_routes_unambiguous_witness :
    matchesLabelValues "loki/api/v1/label/region/values" = true ∧
    "loki/api/v1/label/region/values" ∉ exactStrings :=
  ⟨by decide, (select_routes_unambiguous "loki/api/v1/label/region/values").2.1 (by decide)⟩

/-! ## The label routes -/

theorem HasPrefix_append (a b : String) : HasPrefix (a ++ b) a = true := by
  simp [HasPrefix]

theorem sliceFrom_append (a b : String) : sliceFrom (a ++ b) (len a) = b := by
  simp [sliceFrom, len]

theorem HasSuffix_append (a b : String) : HasSuffix (a ++ b) b = true := by
  simp [HasSuffix]

theorem sliceTo_append (a b : String) : sliceTo (a ++ b) (len (a ++ b) - len b) = a := by
  simp [sliceTo, len]

theorem matchesLabelValues_name (name : String) :
    matchesLabelValues ("loki/api/v1/label/" ++ name ++ "/values") = true ∧
    labelNameOf ("loki/api/v1/label/" ++ name ++ "/values") = name := by
  rw [String.append_assoc]
  simp only [matchesLabelValues, labelNameOf, HasPrefix_append, sliceFrom_append,
    HasSuffix_append, sliceTo_append, Bool.and_self, and_self]

/-- C5: for every string `name`, `selectHandler` on the suffix
`loki/api/v1/label/<name>/values` increments the label-values request
counter, enables CORS, calls the label-values handler with `labelName`
exactly `name` and returns `true` (on a handler error it also increments the
error counter and reports the error); on the suffix `loki/api/v1/label/values`
it returns `false` with no action at all. -/
theorem label_values_dispatch (env : Env) (r : Request) (pre auth : String) (tok : Token)
    (name : String) :
    selectHandler env r ⟨pre, auth, "loki/api/v1/label/" ++ name ++ "/values"⟩ tok =
      (true, [.inc .labelValuesRequests, .EnableCORS, .call (.LabelValuesHandler tok name)] ++
        (match env.handlerResult (.LabelValuesHandler tok name) with
          | some err => [.inc .labelValuesErrors] ++ sendPrometheusError r err
          | none => [])) ∧
    selectHandler env r ⟨pre, auth, "loki/api/v1/label/values"⟩ tok = (false, []) := by
  constructor
  · rw [selectHandler_parametric env r _ tok (matchesLabelValues_name name).1]
    simp only [(matchesLabelValues_name name).2, serve]
    cases env.handlerResult (.LabelValuesHandler tok name) <;> simp
  · rfl

/-- C5 for the label name `region`. -/
theorem label_values_dispatch_witness :
    selectHandler (sampleEnv 30 queryPath none) queryRequest
        ⟨"select", "0", "loki/api/v1/label/" ++ "region" ++ "/values"⟩ sampleToken =
      (true, [.inc .labelValuesRequests, .EnableCORS,
        .call (.LabelValuesHandler sampleToken "region")]) :=
  (label_values_dispatch (sampleEnv 30 queryPath none) queryRequest "select" "0" sampleToken
    "region").1

/-- C9: on the suffix `loki/api/v1/label/count` `selectHandler` returns
`false` with no action, although the counter `labelsCountRequests` is
registered under the path `.../label/count`; the labels-count handler is
reached on `loki/api/v1/labels/count` only, while the labels handler is
reached on both `loki/api/v1/label` and `loki/api/v1/labels`. -/
theorem label_count_not_routed (env : Env) (r : Request) (pre auth : String) (tok : Token) :
    selectHandler env r ⟨pre, auth, "loki/api/v1/label/count"⟩ tok = (false, []) ∧
    Counter.labelsCountRequests.metricName =
      "vm_http_requests_total\x7bpath=\"/select/\x7b\x7d/loki/api/v1/label/count\"\x7d" ∧
    selectHandler env r ⟨pre, auth, "loki/api/v1/labels/count"⟩ tok =
      (true, [.inc .labelsCountRequests, .EnableCORS, .call (.LabelsCountHandler tok)] ++
        (match env.handlerResult (.LabelsCountHandler tok) with
          | some err => [.inc .labelsCountErrors] ++ sendPrometheusError r err
          | none => [])) ∧
    selectHandler env r ⟨pre, auth, "loki/api/v1/label"⟩ tok =
      (true, [.inc .labelsRequests, .EnableCORS, .call (.LabelsHandler tok)] ++
        (match env.handlerResult (.LabelsHandler tok) with
          | some err => [.inc .labelsErrors] ++ sendPrometheusError r err
          | none => [])) ∧
    selectHandler env r ⟨pre, auth, "loki/api/v1/labels"⟩ tok =
      selectHandler env r ⟨pre, auth, "loki/api/v1/label"⟩ tok := by
  refine ⟨rfl, rfl, ?_, ?_, rfl⟩
  · show serve env .labelsCountRequests .labelsCountErrors true (.LabelsCountHandler tok)
      (sendPrometheusError r) = _
    unfold serve
    cases env.handlerResult (.LabelsCountHandler tok) <;> rfl
  · show serve env .labelsRequests .labelsErrors true (.LabelsHandler tok)
      (sendPrometheusError r) = _
    unfold serve
    cases env.handlerResult (.LabelsHandler tok) <;> rfl

/-! ## Path normalisation -/


theorem collapse_nil : replaceFrom ['/', '/'] ['/'] 0 [] = [] := rfl

theorem collapse_pair (cs : List Char) :
    replaceFrom ['/', '/'] ['/'] 0 ('/' :: '/' :: cs) = '/' :: replaceFrom ['/', '/'] ['/'] 0 cs := by
  simp [replaceFrom, List.isPrefixOf]

theorem collapse_other (c : Char) (cs : List Char) (h : ¬ ['/', '/'] <+: c :: cs) :
    replaceFrom ['/', '/'] ['/'] 0 (c :: cs) = c :: replaceFrom ['/', '/'] ['/'] 0 cs := by
  have : List.isPrefixOf ['/', '/'] (c :: cs) = false := by
    rw [← Bool.not_eq_true, List.isPrefixOf_iff_prefix]; exact h
  simp only [replaceFrom, this]
  simp

/-- The pass does not create a leading separator. -/
theorem collapse_head (l : List Char) (h : l.head? ≠ some '/') :
    (replaceFrom ['/', '/'] ['/'] 0 l).head? ≠ some '/' := by
  cases l with
  | nil => simp [collapse_nil]
  | cons c cs =>
    have hc : c ≠ '/' := by simpa using h
    have hp : ¬ ['/', '/'] <+: c :: cs := by
      rintro ⟨t, ht⟩
      simp at ht
      exact hc ht.1.symm
    rw [collapse_other c cs hp]
    simpa using hc

theorem pair_head_iff (c : Char) (l : List Char) :
    ['/', '/'] <+: c :: l ↔ c = '/' ∧ l.head? = some '/' := by
  constructor
  · rintro ⟨t, ht⟩
    cases l with
    | nil => simp at ht
    | cons d cs =>
      simp at ht
      simp [ht.1.symm, ht.2.1.symm]
  · rintro ⟨rfl, hl⟩
    cases l with
    | nil => simp at hl
    | cons d cs =>
      simp at hl
      subst hl
      exact ⟨cs, rfl⟩

/-- A list without three consecutive separators has no two consecutive
separators after the pass. -/
theorem collapse_no_pair : ∀ (n : Nat) (l : List Char), l.length ≤ n →
    ¬ ['/', '/', '/'] <:+: l → ¬ ['/', '/'] <:+: replaceFrom ['/', '/'] ['/'] 0 l := by
  intro n
  induction n with
  | zero =>
    intro l hl _
    have : l = [] := List.length_eq_zero.1 (Nat.le_zero.1 hl)
    subst this
    simp [collapse_nil]
  | succ k ih =>
    intro l hl h3
    cases l with
    | nil => simp [collapse_nil]
    | cons c cs =>
      by_cases hp : ['/', '/'] <+: c :: cs
      · obtain ⟨hc, hcs⟩ := (pair_head_iff c cs).1 hp
        subst hc
        cases cs with
        | nil => simp at hcs
        | cons d ds =>
          simp at hcs
          subst hcs
          rw [collapse_pair]
          have hds3 : ¬ ['/', '/', '/'] <:+: ds := fun hh =>
            h3 (List.infix_cons (List.infix_cons hh))
          have hhead : ds.head? ≠ some '/' := by
            intro hh
            cases ds with
            | nil => simp at hh
            | cons e es =>
              simp at hh
              subst hh
              exact h3 ⟨[], es, rfl⟩
          have hrec := ih ds (by simp at hl; omega) hds3
          rw [List.infix_cons_iff, pair_head_iff]
          rintro (⟨_, hh⟩ | hh)
          · exact collapse_head ds hhead hh
          · exact hrec hh
      · rw [collapse_other c cs hp]
        have hcs3 : ¬ ['/', '/', '/'] <:+: cs := fun hh => h3 (List.infix_cons hh)
        have hrec := ih cs (by simp at hl; omega) hcs3
        rw [List.infix_cons_iff, pair_head_iff]
        rintro (⟨hc, hh⟩ | hh)
        · have hhead : cs.head? ≠ some '/' := fun hq => hp ((pair_head_iff c cs).2 ⟨hc, hq⟩)
          exact collapse_head cs hhead hh
        · exact hrec hh

/-- A list without two consecutive separators is left alone. -/
theorem collapse_id (l : List Char) (h : ¬ ['/', '/'] <:+: l) :
    replaceFrom ['/', '/'] ['/'] 0 l = l := by
  induction l with
  | nil => rfl
  | cons c cs ih =>
    have hp : ¬ ['/', '/'] <+: c :: cs := fun hh => h hh.isInfix
    rw [collapse_other c cs hp, ih (fun hh => h (List.infix_cons hh))]

/-- C8, amended: the path handed to the path parser is `r.URL.Path` after one
left-to-right pass that replaces each non-overlapping `//` by `/`; when the
path has no three consecutive separators the result has no `//`, and a path
without `//` is handed over unchanged. -/
theorem normalize_collapses_pairs (env : Env) (r : Request) :
    (routeRequest env r).2.head? = some (.ParsePath (Replace r.URLPath "//" "/")) ∧
    (¬ Contains r.URLPath "///" → ¬ Contains (Replace r.URLPath "//" "/") "//") ∧
    (¬ Contains r.URLPath "//" → Replace r.URLPath "//" "/" = r.URLPath) := by
  refine ⟨routeRequest_head env r, ?_, ?_⟩
  · intro h
    exact collapse_no_pair _ r.URLPath.data (le_refl _) h
  · intro h
    have := collapse_id r.URLPath.data h
    show String.mk (replaceFrom ['/', '/'] ['/'] 0 r.URLPath.data) = r.URLPath
    rw [this]

/-- C8, amended, on the path `/select//0/loki/api/v1/query`. -/
theorem normalize_collapses_pairs_witness :
    ¬ Contains "/select//0/loki/api/v1/query" "///" ∧
    ¬ Contains (Replace "/select//0/loki/api/v1/query" "//" "/") "//" :=
  ⟨by decide,
    (normalize_collapses_pairs (sampleEnv 30 queryPath none)
      ⟨"/select//0/loki/api/v1/query", "/select//0/loki/api/v1/query"⟩).2.1 (by decide)⟩

/-- C8 as stated fails on the path `///`: the path handed to the parser is
`//`, which contains `//`, and normalising it once more changes it. -/
theorem normalize_keeps_double_separator :
    (routeRequest (sampleEnv 30 queryPath none) ⟨"/x", "///"⟩).2.head?
      = some (.ParsePath "//") ∧
    Contains (Replace "///" "//" "/") "//" ∧
    Replace (Replace "///" "//" "/") "//" "/" ≠ Replace "///" "//" "/" := by
  refine ⟨by decide, ?_, by decide⟩
  exact ⟨[], [], by decide⟩

/-! ## Handler errors -/

theorem serve_error (env : Env) (requests errors : Counter) (cors : Bool) (h : Handler)
    (onErr : GoError → List Event) (e : GoError) (herr : env.handlerResult h = some e) :
    serve env requests errors cors h onErr =
      (true, [.inc requests] ++ (if cors then [.EnableCORS] else []) ++ [.call h] ++
        [.inc errors] ++ onErr e) := by
  simp only [serve, herr]

theorem serve_ok (env : Env) (requests errors : Counter) (cors : Bool) (h : Handler)
    (onErr : GoError → List Event) (herr : env.handlerResult h = none) :
    serve env requests errors cors h onErr =
      (true, [.inc requests] ++ (if cors then [.EnableCORS] else []) ++ [.call h]) := by
  simp only [serve, herr]

theorem requests_ne_errors (rt : SelectRoute) (suffix : String) (tok : Token) (errs : Counter)
    (h : (rt.handler suffix tok).errors = some errs) : rt.requests ≠ errs := by
  cases rt <;> simp [SelectRoute.handler, Handler.errors] at h <;> subst h <;> decide

/-- The trace of a route whose endpoint function returns an error. -/
theorem run_error (rt : SelectRoute) (env : Env) (r : Request) (suffix : String) (tok : Token)
    (e : GoError) (hne : rt.handler suffix tok ≠ .WriteActiveQueries)
    (herr : env.handlerResult (rt.handler suffix tok) = some e) :
    ∃ errs, (rt.handler suffix tok).errors = some errs ∧ rt.requests ≠ errs ∧
      rt.run env r suffix tok =
        (true, [.inc rt.requests] ++ (if rt.cors then [.EnableCORS] else []) ++
          [.call (rt.handler suffix tok)] ++ [.inc errs] ++
          (if (rt.handler suffix tok).reportsStructured then sendPrometheusError r e
            else sendPlainError r e)) := by
  cases hE : (rt.handler suffix tok).errors with
  | none =>
    exfalso
    cases rt <;> simp [SelectRoute.handler, Handler.errors] at hE hne
  | some errs =>
    refine ⟨errs, rfl, requests_ne_errors rt suffix tok errs hE, ?_⟩
    simp only [SelectRoute.run, hE]
    rw [serve_error env _ _ _ _ _ e herr]
    cases (rt.handler suffix tok).reportsStructured <;> rfl

theorem run_calls (rt : SelectRoute) (env : Env) (r : Request) (suffix : String) (tok : Token)
    (h : Handler) (hcall : Event.call h ∈ (rt.run env r suffix tok).2) :
    h = rt.handler suffix tok := by
  unfold SelectRoute.run at hcall
  cases hE : (rt.handler suffix tok).errors with
  | none =>
    simp only [hE, List.mem_cons, List.mem_singleton, List.not_mem_nil, or_false,
      reduceCtorEq, false_or, Event.call.injEq] at hcall
    exact hcall
  | some errs =>
    simp only [hE] at hcall
    cases hres : env.handlerResult (rt.handler suffix tok) with
    | none =>
      rw [serve_ok env _ _ _ _ _ hres] at hcall
      cases hc : rt.cors <;> simp [hc] at hcall <;> exact hcall
    | some e =>
      rw [serve_error env _ _ _ _ _ e hres] at hcall
      cases hc : rt.cors <;> cases hs : (rt.handler suffix tok).reportsStructured <;>
        cases hv : validWriteHeaderCode (statusFor e) <;>
        simp [hc, hs, hv, sendPrometheusError_eq, sendPlainError] at hcall <;> exact hcall

theorem selectHandler_run (env : Env) (r : Request) (p : Path) (tok : Token) :
    selectHandler env r p tok = (false, []) ∨
      ∃ rt : SelectRoute, rt.matches p.Suffix = true ∧
        selectHandler env r p tok = rt.run env r p.Suffix tok := by
  rw [selectHandler_eq_table]
  unfold selectHandlerTable
  cases hf : SelectRoute.all.find? (fun rt => rt.matches p.Suffix) with
  | none => exact Or.inl rfl
  | some rt => exact Or.inr ⟨rt, by simpa using List.find?_some hf, rfl⟩

theorem deleteHandler_calls (env : Env) (r : Request) (p : Path) (tok : Token) (h : Handler)
    (hcall : Event.call h ∈ (deleteHandler env r p tok).2) : h = .DeleteHandler tok := by
  unfold deleteHandler at hcall
  split at hcall
  · cases hres : env.handlerResult (.DeleteHandler tok) <;>
      simp [hres, sendPlainError] at hcall <;> exact hcall
  · simp at hcall

theorem deleteHandler_error (env : Env) (r : Request) (p : Path) (tok : Token) (h : Handler)
    (e : GoError) (hcall : Event.call h ∈ (deleteHandler env r p tok).2)
    (herr : env.handlerResult (.DeleteHandler tok) = some e) :
    (deleteHandler env r p tok).2 =
      [.inc .deleteRequests, .call (.DeleteHandler tok), .inc .deleteErrors] ++
        sendPlainError r e := by
  unfold deleteHandler at hcall ⊢
  split
  · simp only [herr]
  · rename_i hs
    simp [hs] at hcall

/-- The events of a request that got past the gate, when an endpoint function
was called and returned an error. -/
theorem routeRequest_error (env : Env) (r : Request) (h : Handler) (e : GoError)
    (hne : h ≠ .WriteActiveQueries) (hcall : Event.call h ∈ (routeRequest env r).2)
    (herr : env.handlerResult h = some e) :
    ∃ (errs : Counter) (head : List Event), h.errors = some errs ∧
      head.count (.inc errs) = 0 ∧ (∀ ev ∈ head, ev.writesResponse = true ∨ ev.isPanic = true →
        ev = .EnableCORS ∨ ev = .call h) ∧
      (routeRequest env r).2 = head ++ [.inc errs] ++
        (if h.reportsStructured then sendPrometheusError r e else sendPlainError r e) := by
  cases hP : env.ParsePath (Replace r.URLPath "//" "/") with
  | error err => simp [routeRequest, hP] at hcall
  | ok p =>
    cases hT : env.NewToken p.AuthToken with
    | error err => simp [routeRequest, hP, hT] at hcall
    | ok tok =>
      simp only [routeRequest, hP, hT] at hcall ⊢
      by_cases hsel : p.Prefix = "select"
      · simp only [if_pos hsel, List.cons_append, List.nil_append, List.mem_cons, reduceCtorEq,
          false_or] at hcall ⊢
        rcases selectHandler_run env r p tok with hnone | ⟨rt, _, hrun⟩
        · simp [hnone] at hcall
        · rw [hrun] at hcall ⊢
          have hh := run_calls rt env r p.Suffix tok h hcall
          subst hh
          obtain ⟨errs, hE, hreq, htr⟩ := run_error rt env r p.Suffix tok e hne herr
          refine ⟨errs, [.ParsePath (Replace r.URLPath "//" "/"), .NewToken p.AuthToken] ++
            ([.inc rt.requests] ++ (if rt.cors then [.EnableCORS] else []) ++
              [.call (rt.handler p.Suffix tok)]), hE, ?_, ?_, ?_⟩
          · cases rt.cors <;> simp [List.count_cons, hreq]
          · intro ev hev hw
            cases hc : rt.cors <;> simp [hc] at hev
            · rcases hev with rfl | rfl | rfl | rfl
              · simp [Event.writesResponse, Event.isPanic] at hw
              · simp [Event.writesResponse, Event.isPanic] at hw
              · simp [Event.writesResponse, Event.isPanic] at hw
              · exact Or.inr rfl
            · rcases hev with rfl | rfl | rfl | rfl | rfl
              · simp [Event.writesResponse, Event.isPanic] at hw
              · simp [Event.writesResponse, Event.isPanic] at hw
              · simp [Event.writesResponse, Event.isPanic] at hw
              · exact Or.inl rfl
              · exact Or.inr rfl
          · rw [htr]; simp
      · by_cases hdel : p.Prefix = "delete"
        · simp only [if_neg hsel, if_pos hdel, List.cons_append, List.nil_append, List.mem_cons,
            reduceCtorEq, false_or] at hcall ⊢
          have hh := deleteHandler_calls env r p tok h hcall
          subst hh
          rw [deleteHandler_error env r p tok _ e hcall herr]
          refine ⟨.deleteErrors, [.ParsePath (Replace r.URLPath "//" "/"),
            .NewToken p.AuthToken, .inc .deleteRequests, .call (.DeleteHandler tok)], rfl, ?_, ?_, ?_⟩
          · simp [List.count_cons]
          · intro ev hev hw
            simp at hev
            rcases hev with rfl | rfl | rfl | rfl
            · simp [Event.writesResponse, Event.isPanic] at hw
            · simp [Event.writesResponse, Event.isPanic] at hw
            · simp [Event.writesResponse, Event.isPanic] at hw
            · exact Or.inr rfl
          · simp [Handler.reportsStructured]
        · simp [if_neg hsel, if_neg hdel] at hcall

theorem statusFor_cases (e : GoError) :
    (∀ code, errorsAs e = some code → statusFor e = code) ∧
    (errorsAs e = none → statusFor e = StatusUnprocessableEntity) := by
  unfold statusFor
  cases errorsAs e <;> simp

/-- The status code by the shape of the error: the code of an
`ErrorWithStatusCode`, the status of what a wrapping error wraps, and 422 for
an error that is neither. -/
theorem statusFor_shape :
    (∀ inner code, statusFor (.ErrorWithStatusCode inner code) = code) ∧
    (∀ text inner, statusFor (.wrapping text inner) = statusFor inner) ∧
    (∀ format args, statusFor (.errorf format args) = 422) :=
  ⟨fun _ _ => rfl, fun _ _ => rfl, fun _ _ => rfl⟩

/-- C10, amended: for every endpoint function `h` that was called and
returned an error `e`, the error counter of the endpoint is incremented
exactly once.  When the endpoint reports with `sendPrometheusError` (label
values, query, query_range, tail, series, series/count, labels, labels/count,
status/tsdb), the status passed to `w.WriteHeader` is the code carried by `e`
when `e` is or wraps an `ErrorWithStatusCode`, and 422 otherwise; when that
status lies in 100..999 the structured error body is written once, with the
same status and with `e`, and nothing panics; when it lies outside,
`w.WriteHeader` panics and no structured error body is written.  For export,
export/native, federate and delete_series the error is handed to
`httpserver.Errorf` with the format `error in %q: %s` and no structured error
body is written. -/
theorem handler_error_reporting (env : Env) (r : Request) (h : Handler) (e : GoError)
    (hne : h ≠ .WriteActiveQueries) (hcall : Event.call h ∈ (routeRequest env r).2)
    (herr : env.handlerResult h = some e) :
    (∃ errs, h.errors = some errs ∧ (routeRequest env r).2.count (.inc errs) = 1) ∧
    (h.reportsStructured = true →
      (∀ sc, Event.WriteHeader sc ∈ (routeRequest env r).2 ↔ sc = statusFor e) ∧
      (100 ≤ statusFor e ∧ statusFor e ≤ 999 →
        (∀ sc err, Event.WriteErrorResponse sc err ∈ (routeRequest env r).2 ↔
          sc = statusFor e ∧ err = e) ∧
        (routeRequest env r).2.count (.WriteErrorResponse (statusFor e) e) = 1 ∧
        ∀ sc, Event.WriteHeaderPanic sc ∉ (routeRequest env r).2) ∧
      (¬ (100 ≤ statusFor e ∧ statusFor e ≤ 999) →
        Event.WriteHeaderPanic (statusFor e) ∈ (routeRequest env r).2 ∧
        ∀ sc err, Event.WriteErrorResponse sc err ∉ (routeRequest env r).2)) ∧
    (h.reportsStructured = false →
      Event.Errorf "error in %q: %s" [.str r.URLPath, .err e] ∈ (routeRequest env r).2 ∧
      ∀ sc err, Event.WriteErrorResponse sc err ∉ (routeRequest env r).2) ∧
    ((∀ code, errorsAs e = some code → statusFor e = code) ∧
      (errorsAs e = none → statusFor e = StatusUnprocessableEntity)) ∧
    ((∀ inner code, statusFor (.ErrorWithStatusCode inner code) = code) ∧
      (∀ text inner, statusFor (.wrapping text inner) = statusFor inner) ∧
      (∀ format args, statusFor (.errorf format args) = 422)) := by
  obtain ⟨errs, head, hE, hcount, hhead, htr⟩ := routeRequest_error env r h e hne hcall herr
  have hWH : ∀ sc, Event.WriteHeader sc ∉ head := by
    intro sc hm
    rcases hhead _ hm (Or.inl rfl) with h1 | h1 <;> simp at h1
  have hWE : ∀ sc err, Event.WriteErrorResponse sc err ∉ head := by
    intro sc err hm
    rcases hhead _ hm (Or.inl rfl) with h1 | h1 <;> simp at h1
  have hWP : ∀ sc, Event.WriteHeaderPanic sc ∉ head := by
    intro sc hm
    rcases hhead _ hm (Or.inr rfl) with h1 | h1 <;> simp at h1
  have hWEc : head.count (.WriteErrorResponse (statusFor e) e) = 0 :=
    List.count_eq_zero.2 (hWE _ _)
  refine ⟨⟨errs, hE, ?_⟩, ?_, ?_, statusFor_cases e, statusFor_shape⟩
  · rw [htr]
    cases h.reportsStructured <;> cases hv : validWriteHeaderCode (statusFor e) <;>
      simp [List.count_append, List.count_cons, hcount, sendPrometheusError_eq, sendPlainError,
        hv]
  · intro hs
    rw [htr, hs]
    simp only [if_true, sendPrometheusError_eq]
    refine ⟨?_, ?_, ?_⟩
    · intro sc
      cases hv : validWriteHeaderCode (statusFor e) <;> simp [hWH, eq_comm]
    · intro hrange
      have hv : validWriteHeaderCode (statusFor e) = true := by
        simp [validWriteHeaderCode, hrange]
      simp only [hv, if_true]
      refine ⟨?_, ?_, ?_⟩
      · intro sc err
        simp [hWE, eq_comm]
      · simp [List.count_append, List.count_cons, hWEc]
      · intro sc
        simp [hWP]
    · intro hrange
      have hv : validWriteHeaderCode (statusFor e) = false := by
        simpa [validWriteHeaderCode] using hrange
      simp only [hv, Bool.false_eq_true, if_false]
      refine ⟨by simp, ?_⟩
      intro sc err
      simp [hWE]
  · intro hs
    rw [htr, hs]
    simp [sendPlainError, hWE]

/-- C10, amended, on a failing query whose error wraps an `ErrorWithStatusCode`
with the code 400: the header and the structured error body both get 400, and
the error counter of the endpoint is incremented once. -/
theorem handler_error_reporting_witness :
    Handler.QueryHandler sampleToken ≠ .WriteActiveQueries ∧
    Event.call (.QueryHandler sampleToken) ∈
      (routeRequest (sampleEnv 30 queryPath (some sampleStatusError)) queryRequest).2 ∧
    (Handler.QueryHandler sampleToken).reportsStructured = true ∧
    ((100 : Int) ≤ statusFor sampleStatusError ∧ statusFor sampleStatusError ≤ 999) ∧
    Event.WriteHeader 400 ∈
      (routeRequest (sampleEnv 30 queryPath (some sampleStatusError)) queryRequest).2 ∧
    Event.WriteErrorResponse 400 sampleStatusError ∈
      (routeRequest (sampleEnv 30 queryPath (some sampleStatusError)) queryRequest).2 :=
  ⟨by decide, by decide, rfl, by decide,
    (((handler_error_reporting (sampleEnv 30 queryPath (some sampleStatusError)) queryRequest
      (.QueryHandler sampleToken) sampleStatusError (by decide) (by decide) rfl).2.1 rfl).1
        400).2 (by decide),
    ((((handler_error_reporting (sampleEnv 30 queryPath (some sampleStatusError)) queryRequest
      (.QueryHandler sampleToken) sampleStatusError (by decide) (by decide) rfl).2.1 rfl).2.1
        (by decide)).1 400 sampleStatusError).2 ⟨by decide, rfl⟩⟩

/-- The panic case of `sendPrometheusError` on a failing query whose error
carries the status code 0: `w.WriteHeader(0)` panics and no structured error
body is written. -/
theorem sendPrometheusError_invalid_code :
    statusFor sampleInvalidStatusError = 0 ∧
    (routeRequest (sampleEnv 30 queryPath (some sampleInvalidStatusError)) queryRequest).2 =
      [ .ParsePath "/select/0/loki/api/v1/query", .NewToken "0", .inc .queryRequests,
        .EnableCORS, .call (.QueryHandler sampleToken), .inc .queryErrors,
        .Warnf "error in %q: %s"
          [.str "/select/0/loki/api/v1/query", .err sampleInvalidStatusError],
        .HeaderSet "Content-Type" "application/json", .WriteHeader 0,
        .WriteHeaderPanic 0 ] := by
  decide


/-- C10 as stated fails on the export endpoint: its handler is called and
returns an error, and the error goes to `httpserver.Errorf`; no structured
error body is written and no status is set by `requestHandler`. -/
theorem export_error_not_structured :
    (sampleEnv 30 exportPath (some sampleError)).handlerResult (.ExportHandler sampleToken)
      = some sampleError ∧
    (routeRequest (sampleEnv 30 exportPath (some sampleError)) exportRequest).2 =
      [ .ParsePath "/select/0/loki/api/v1/export", .NewToken "0", .inc .exportRequests,
        .call (.ExportHandler sampleToken), .inc .exportErrors,
        .Errorf "error in %q: %s" [.str "/select/0/loki/api/v1/export", .err sampleError] ] ∧
    Event.WriteErrorResponse (statusFor sampleError) sampleError ∉
      (routeRequest (sampleEnv 30 exportPath (some sampleError)) exportRequest).2 := by
  decide

/-! ## The shutdown sequence of `main` -/

/-- An occurrence of `b` in `st ++ sh` lies in `sh` when `b` does not occur
in `st`. -/
theorem OnlyAfter.append (a b : MainEvent) (st sh : List MainEvent) (hb : b ∉ st)
    (hsh : OnlyAfter a b sh) : OnlyAfter a b (st ++ sh) := by
  intro pre post h
  rcases List.append_eq_append_iff.1 h with ⟨a1, hpre, hsh1⟩ | ⟨c1, hst, hc⟩
  · rw [hpre]
    exact List.mem_append_right st (hsh a1 post hsh1)
  · cases c1 with
    | nil =>
      simp only [List.nil_append] at hc
      simp only [List.append_nil] at hst
      have := hsh [] post hc.symm
      simp at this
    | cons c cs =>
      simp only [List.cons_append, List.cons.injEq] at hc
      exact absurd (hst ▸ List.mem_append_right pre (hc.1 ▸ List.mem_cons_self c cs)) hb

theorem OnlyAfter.of_not_mem (a b : MainEvent) (tr : List MainEvent) (hb : b ∉ tr) :
    OnlyAfter a b tr := by
  intro pre post h
  exact absurd (h ▸ List.mem_append_right pre (List.mem_cons_self b post)) hb

/-- The startup of `main` stops no subsystem. -/
theorem mainStartup_no_stop (flags : Flags) :
    (mainStartup flags).1.all (fun e => !e.isStop) = true := by
  unfold mainStartup
  simp only
  split
  · rfl
  · split <;> split <;> simp [List.all_append, MainEvent.isStop]

theorem mainStartup_not_mem (flags : Flags) (e : MainEvent) (he : e.isStop = true) :
    e ∉ (mainStartup flags).1 := by
  intro hm
  have := List.all_eq_true.1 (mainStartup_no_stop flags) e hm
  simp [he] at this

/-- The shutdown with a listener that stops cleanly. -/
theorem mainShutdown_clean (flags : Flags) (sig : String) :
    OnlyAfter (.httpserverStop flags.httpListenAddr none) .netstorageStop
      (mainShutdown flags (some sig) none).1 ∧
    OnlyAfter .netstorageStop .MustStopDirRemover (mainShutdown flags (some sig) none).1 := by
  constructor
  all_goals
    intro pre post h
    simp only [mainShutdown] at h
    rcases pre with _ | ⟨p1, _ | ⟨p2, _ | ⟨p3, _ | ⟨p4, _ | ⟨p5, _ | ⟨p6, _ | ⟨p7, _ | ⟨p8,
      _ | ⟨p9, _ | ⟨p10, rest⟩⟩⟩⟩⟩⟩⟩⟩⟩⟩ <;>
    first
      | (simp at h; done)
      | (simp at h; simp [h])

/-- C11: in every run of `main`, `netstorage.Stop` occurs only after
`httpserver.Stop` has returned without error, and `fs.MustStopDirRemover`
occurs only after `netstorage.Stop` has returned; when the startup completes,
the termination signal arrives and the listener stops cleanly, the three
stops occur and `main` returns; when `httpserver.Stop` returns an error the
process is ended by `logger.Fatalf` and neither `netstorage.Stop` nor
`fs.MustStopDirRemover` is called. -/
theorem shutdown_order (flags : Flags) (signal : Option String) (stopErr : Option GoError) :
    OnlyAfter (.httpserverStop flags.httpListenAddr none) .netstorageStop
      (main flags signal stopErr).1 ∧
    OnlyAfter .netstorageStop .MustStopDirRemover (main flags signal stopErr).1 ∧
    ((mainStartup flags).2 = none → signal ≠ none → stopErr = none →
      (main flags signal stopErr).2 = .returned ∧
      (main flags signal stopErr).1.filter MainEvent.isStop =
        [.httpserverStop flags.httpListenAddr none, .netstorageStop, .MustStopDirRemover]) ∧
    (∀ err, stopErr = some err →
      MainEvent.netstorageStop ∉ (main flags signal stopErr).1 ∧
      MainEvent.MustStopDirRemover ∉ (main flags signal stopErr).1 ∧
      ((mainStartup flags).2 = none → signal ≠ none →
        (main flags signal stopErr).2 = .fatal ∧
        (main flags signal stopErr).1.filter MainEvent.isStop =
          [.httpserverStop flags.httpListenAddr (some err)])) := by
  have hn1 := mainStartup_not_mem flags .netstorageStop rfl
  have hn2 := mainStartup_not_mem flags .MustStopDirRemover rfl
  have hfilter : (mainStartup flags).1.filter MainEvent.isStop = [] := by
    rw [List.filter_eq_nil_iff]
    intro e he
    have := List.all_eq_true.1 (mainStartup_no_stop flags) e he
    simpa using this
  cases hst : (mainStartup flags).2 with
  | some exit =>
    have hmain : main flags signal stopErr = ((mainStartup flags).1, exit) := by
      simp only [main, hst]
    rw [hmain]
    refine ⟨OnlyAfter.of_not_mem _ _ _ hn1, OnlyAfter.of_not_mem _ _ _ hn2, ?_, ?_⟩
    · intro h; simp at h
    · intro err _
      exact ⟨hn1, hn2, fun h => by simp at h⟩
  | none =>
    have hmain : main flags signal stopErr =
        ((mainStartup flags).1 ++ (mainShutdown flags signal stopErr).1,
          (mainShutdown flags signal stopErr).2) := by
      simp only [main, hst]
    rw [hmain]
    cases signal with
    | none =>
      refine ⟨OnlyAfter.append _ _ _ _ hn1 (OnlyAfter.of_not_mem _ _ _ (by simp [mainShutdown])),
        OnlyAfter.append _ _ _ _ hn2 (OnlyAfter.of_not_mem _ _ _ (by simp [mainShutdown])),
        ?_, ?_⟩
      · intro _ h; simp at h
      · intro err _
        refine ⟨?_, ?_, fun _ h => by simp at h⟩ <;> simp [hn1, hn2, mainShutdown]
    | some sig =>
      cases stopErr with
      | none =>
        refine ⟨OnlyAfter.append _ _ _ _ hn1 (mainShutdown_clean flags sig).1,
          OnlyAfter.append _ _ _ _ hn2 (mainShutdown_clean flags sig).2, ?_, ?_⟩
        · intro _ _ _
          refine ⟨rfl, ?_⟩
          rw [List.filter_append, hfilter]
          rfl
        · intro err h; simp at h
      | some err0 =>
        refine ⟨OnlyAfter.append _ _ _ _ hn1 (OnlyAfter.of_not_mem _ _ _ (by simp [mainShutdown])),
          OnlyAfter.append _ _ _ _ hn2 (OnlyAfter.of_not_mem _ _ _ (by simp [mainShutdown])),
          ?_, ?_⟩
        · intro _ _ h; simp at h
        · intro err h
          cases h
          refine ⟨by simp [hn1, mainShutdown], by simp [hn2, mainShutdown], fun _ _ => ⟨rfl, ?_⟩⟩
          rw [List.filter_append, hfilter]
          rfl

/-- C11 on a run with one storage node in which the listener stops cleanly. -/
theorem shutdown_order_witness :
    (mainStartup sampleFlags).2 = none ∧ (some "terminated" : Option String) ≠ none ∧
    (main sampleFlags (some "terminated") none).2 = .returned :=
  ⟨by decide, by decide,
    ((shutdown_order sampleFlags (some "terminated") none).2.2.1 (by decide) (by decide) rfl).1⟩

/-! ## The counters of the gate -/

/-- What an enabled step does to the two counters of the gate. -/
theorem step_counters (s s1 : Sys) (st : Step) (h : step s st = some s1) :
    match st with
    | .sendImmediate => s1.limitReached = s.limitReached ∧ s1.limitTimeout = s.limitTimeout ∧
        s1.queued = s.queued
    | .enterQueue => s1.limitReached = s.limitReached + 1 ∧ s1.limitTimeout = s.limitTimeout ∧
        s1.queued = s.queued + 1
    | .sendQueued => s1.limitReached = s.limitReached ∧ s1.limitTimeout = s.limitTimeout ∧
        s1.queued + 1 = s.queued
    | .timerFired => s1.limitReached = s.limitReached ∧ s1.limitTimeout = s.limitTimeout + 1 ∧
        s1.queued + 1 = s.queued
    | .release => s1.limitReached = s.limitReached ∧ s1.limitTimeout = s.limitTimeout ∧
        s1.queued = s.queued := by
  cases st <;> simp only [step] at h <;> split at h <;>
    simp only [Option.some.injEq, reduceCtorEq] at h <;>
    (subst h; simp_all <;> omega)

/-- Along a run, the timeouts and the requests still queued never exceed the
requests that found the gate full. -/
theorem run_counters (steps : List Step) :
    ∀ s s1 : Sys, s.limitTimeout + s.queued ≤ s.limitReached → run s steps = some s1 →
      s1.limitTimeout + s1.queued ≤ s1.limitReached := by
  induction steps with
  | nil => intro s s1 hs h; simp [run] at h; subst h; exact hs
  | cons st rest ih =>
    intro s s1 hs h
    simp only [run] at h
    cases hst : step s st with
    | none => simp [hst] at h
    | some s2 =>
      simp only [hst, Option.bind_some] at h
      refine ih s2 s1 ?_ h
      have he := step_counters s s2 st hst
      cases st <;> simp only at he <;> omega

/-- The counter increments of one call of `requestHandler`, by the case of
the two `select` statements that was taken. -/
theorem requestHandler_counters (cfg : Config) (env : Env) (ch : Chan) (r : Request)
    (hreq : r.RequestURI ≠ "/") :
    match (gateSelect env ch).1 with
    | .immediate =>
      (requestHandler cfg env ch r).trace.count (.inc .concurrencyLimitReached) = 0 ∧
      (requestHandler cfg env ch r).trace.count (.inc .concurrencyLimitTimeout) = 0
    | .queued =>
      (requestHandler cfg env ch r).trace.count (.inc .concurrencyLimitReached) = 1 ∧
      (requestHandler cfg env ch r).trace.count (.inc .concurrencyLimitTimeout) = 0
    | .timedOut =>
      (requestHandler cfg env ch r).trace.count (.inc .concurrencyLimitReached) = 1 ∧
      (requestHandler cfg env ch r).trace.count (.inc .concurrencyLimitTimeout) = 1 := by
  have hR := count_eq_zero_of_all (routeRequest_fromRouter env r)
    (.inc .concurrencyLimitReached) rfl
  have hT := count_eq_zero_of_all (routeRequest_fromRouter env r)
    (.inc .concurrencyLimitTimeout) rfl
  unfold requestHandler
  rw [if_neg hreq]
  rcases hg : gateSelect env ch with ⟨a, ch1⟩
  cases a <;> simp [List.count_cons, hR, hT]

theorem requestHandler_timeout_le (cfg : Config) (env : Env) (ch : Chan) (r : Request) :
    (requestHandler cfg env ch r).trace.count (.inc .concurrencyLimitTimeout) ≤
      (requestHandler cfg env ch r).trace.count (.inc .concurrencyLimitReached) := by
  by_cases hreq : r.RequestURI = "/"
  · simp [requestHandler, hreq]
  · have h := requestHandler_counters cfg env ch r hreq
    rcases hg : (gateSelect env ch).1 <;> rw [hg] at h <;> simp only at h <;> omega

theorem handleAll_timeout_le (cfg : Config) (reqs : List (Env × Request)) :
    ∀ ch : Chan, (handleAll cfg ch reqs).count (.inc .concurrencyLimitTimeout) ≤
      (handleAll cfg ch reqs).count (.inc .concurrencyLimitReached) := by
  induction reqs with
  | nil => intro ch; simp [handleAll]
  | cons q rest ih =>
    intro ch
    obtain ⟨env, r⟩ := q
    simp only [handleAll, List.count_append]
    have h1 := requestHandler_timeout_le cfg env ch r
    have h2 := ih (requestHandler cfg env ch r).ch
    omega

/-- C12: for every call of `requestHandler` that reaches the gate, an
immediate send increments neither counter of the gate, a queued send
increments `concurrencyLimitReached` exactly once and
`concurrencyLimitTimeout` not at all, and a timeout increments each of them
exactly once; hence after every sequence of requests, run one after the
other or interleaved, `limitTimeout <= limitReached`. -/
theorem gate_counters (cfg : Config) (env : Env) (ch : Chan) (r : Request) :
    (r.RequestURI ≠ "/" →
      match (gateSelect env ch).1 with
      | .immediate =>
        (requestHandler cfg env ch r).trace.count (.inc .concurrencyLimitReached) = 0 ∧
        (requestHandler cfg env ch r).trace.count (.inc .concurrencyLimitTimeout) = 0
      | .queued =>
        (requestHandler cfg env ch r).trace.count (.inc .concurrencyLimitReached) = 1 ∧
        (requestHandler cfg env ch r).trace.count (.inc .concurrencyLimitTimeout) = 0
      | .timedOut =>
        (requestHandler cfg env ch r).trace.count (.inc .concurrencyLimitReached) = 1 ∧
        (requestHandler cfg env ch r).trace.count (.inc .concurrencyLimitTimeout) = 1) ∧
    (∀ reqs : List (Env × Request),
      (handleAll cfg ch reqs).count (.inc .concurrencyLimitTimeout) ≤
        (handleAll cfg ch reqs).count (.inc .concurrencyLimitReached)) ∧
    (∀ (capacity : Int) (steps : List Step) (s : Sys),
      run (Sys.init capacity) steps = some s → s.limitTimeout ≤ s.limitReached) := by
  refine ⟨requestHandler_counters cfg env ch r, fun reqs => handleAll_timeout_le cfg reqs ch, ?_⟩
  intro capacity steps s h
  have := run_counters steps (Sys.init capacity) s (by simp [Sys.init]) h
  omega

/-- C12 on a request that finds both slots taken and times out. -/
theorem gate_counters_witness :
    queryRequest.RequestURI ≠ "/" ∧
    (gateSelect (sampleEnv 30 queryPath none) (Chan.mk 2 2)).1 = .timedOut ∧
    (requestHandler sampleConfig (sampleEnv 30 queryPath none) (Chan.mk 2 2)
      queryRequest).trace.count (.inc .concurrencyLimitTimeout) = 1 :=
  ⟨by decide, by decide,
    ((gate_counters sampleConfig (sampleEnv 30 queryPath none) (Chan.mk 2 2) queryRequest).1
      (by decide)).2⟩

/-! ## The default capacity -/

/-- C13: for every parallelism `n >= 1`, `getDefaultMaxConcurrentRequests`
returns `2 * n` when `n <= 4`, `n` when `5 <= n <= 16` and `16` when
`n > 16`; the result lies between 2 and 16. -/
theorem default_capacity (n : Int) (hn : 1 ≤ n) :
    (n ≤ 4 → getDefaultMaxConcurrentRequests n = 2 * n) ∧
    (5 ≤ n → n ≤ 16 → getDefaultMaxConcurrentRequests n = n) ∧
    (16 < n → getDefaultMaxConcurrentRequests n = 16) ∧
    2 ≤ getDefaultMaxConcurrentRequests n ∧ getDefaultMaxConcurrentRequests n ≤ 16 := by
  unfold getDefaultMaxConcurrentRequests wrapInt64
  simp only
  refine ⟨?_, ?_, ?_, ?_, ?_⟩
  all_goals
    split <;> split <;> omega

/-- C13 on four processors: the default capacity is eight. -/
theorem default_capacity_witness :
    (1 : Int) ≤ 4 ∧ (4 : Int) ≤ 4 ∧ getDefaultMaxConcurrentRequests 4 = 8 :=
  ⟨by decide, by decide, ((default_capacity 4 (by decide)).1 (by decide)).trans (by decide)⟩

end VMSelect
